import Mathlib

/-!
# The MeshLib documentation index and the mesh model it documents

Part I embeds the two navigation tables of the generated documentation,
`hierarchy.js` and `namespace_mesh_lib.js`, as Lean data and states facts about
them.  Part II models the half-edge mesh, its construction and the edge flip of
the dynamic mesh that these pages document.
-/

namespace MeshLibDoc

/-! ## Part I: the navigation tables -/

/-- One row of the `hierarchy` array: `[ name, link, children ]`, where the third
component is either `null` or an array of rows of the same shape. -/
inductive Entry where
  | mk (name : String) (link : String) (children : Option (List Entry))

namespace Entry

/-- First component of a row. -/
def name : Entry → String
  | .mk n _ _ => n

/-- Second component of a row. -/
def link : Entry → String
  | .mk _ l _ => l

/-- Third component of a row (`none` stands for `null`). -/
def children : Entry → Option (List Entry)
  | .mk _ _ c => c

end Entry

/-- The array `hierarchy` of `hierarchy.js`. -/
def hierarchy : List Entry :=
  [ .mk "MeshLib::CBaseEmbed< CVertex, CEdge, CFace, CHalfEdge >" "class_mesh_lib_1_1_c_base_embed.html" (some
      [ .mk "MeshLib::CEuclideanEmbed< CVertex, CEdge, CFace, CHalfEdge >" "class_mesh_lib_1_1_c_euclidean_embed.html" none ]),
    .mk "MeshLib::CBaseMesh< CVertex, CEdge, CFace, CHalfEdge >" "class_mesh_lib_1_1_c_base_mesh.html" none,
    .mk "MeshLib::CBaseMesh< MeshLib::CVertex, MeshLib::CEdge, MeshLib::CFace, MeshLib::CHalfEdge >" "class_mesh_lib_1_1_c_base_mesh.html" none,
    .mk "MeshLib::CBaseMesh< MeshLib::V, MeshLib::E, MeshLib::F, MeshLib::H >" "class_mesh_lib_1_1_c_base_mesh.html" none,
    .mk "MeshLib::CBaseMesh< V, E, F, H >" "class_mesh_lib_1_1_c_base_mesh.html" (some
      [ .mk "MeshLib::CDynamicMesh< V, E, F, H >" "class_mesh_lib_1_1_c_dynamic_mesh.html" none ]),
    .mk "MeshLib::CBaseRicciFlow< V, E, F, H >" "class_mesh_lib_1_1_c_base_ricci_flow.html" (some
      [ .mk "MeshLib::CTangentialRicciFlow< V, E, F, H >" "class_mesh_lib_1_1_c_tangential_ricci_flow.html" (some
          [ .mk "MeshLib::CTangentialRicciFlowExtremalLength< V, E, F, H >" "class_mesh_lib_1_1_c_tangential_ricci_flow_extremal_length.html" none ]) ]),
    .mk "MeshLib::CBoundary< CVertex, CEdge, CFace, CHalfEdge >" "class_mesh_lib_1_1_c_boundary.html" none,
    .mk "MeshLib::CBoundary< V, E, F, H >" "class_mesh_lib_1_1_c_boundary.html" none,
    .mk "MeshLib::CCircle" "class_mesh_lib_1_1_c_circle.html" none,
    .mk "MeshLib::CEdge" "class_mesh_lib_1_1_c_edge.html" none,
    .mk "MeshLib::CFace" "class_mesh_lib_1_1_c_face.html" none,
    .mk "MeshLib::CHalfEdge" "class_mesh_lib_1_1_c_half_edge.html" none,
    .mk "MeshLib::CLoop< CVertex, CEdge, CFace, CHalfEdge >" "class_mesh_lib_1_1_c_loop.html" none,
    .mk "MeshLib::CParser" "class_mesh_lib_1_1_c_parser.html" none,
    .mk "MeshLib::CPoint" "class_mesh_lib_1_1_c_point.html" none,
    .mk "MeshLib::CPoint2" "class_mesh_lib_1_1_c_point2.html" none,
    .mk "MeshLib::CStructure< Mesh, V, E, F, H >" "class_mesh_lib_1_1_c_structure.html" none,
    .mk "MeshLib::CToken" "class_mesh_lib_1_1_c_token.html" none,
    .mk "MeshLib::CVertex" "class_mesh_lib_1_1_c_vertex.html" (some
      [ .mk "MeshLib::CRicciFlowVertex" "class_mesh_lib_1_1_c_ricci_flow_vertex.html" none ]),
    .mk "MeshLib::FaceEdgeIterator< CVertex, CEdge, CFace, CHalfEdge >" "class_mesh_lib_1_1_face_edge_iterator.html" none,
    .mk "MeshLib::FaceHalfedgeIterator< CVertex, CEdge, CFace, CHalfEdge >" "class_mesh_lib_1_1_face_halfedge_iterator.html" none,
    .mk "MeshLib::FaceVertexIterator< CVertex, CEdge, CFace, CHalfEdge >" "class_mesh_lib_1_1_face_vertex_iterator.html" none,
    .mk "MeshLib::MeshEdgeIterator< CVertex, CEdge, CFace, CHalfEdge >" "class_mesh_lib_1_1_mesh_edge_iterator.html" none,
    .mk "MeshLib::MeshFaceIterator< CVertex, CEdge, CFace, CHalfEdge >" "class_mesh_lib_1_1_mesh_face_iterator.html" none,
    .mk "MeshLib::MeshHalfEdgeIterator< CVertex, CEdge, CFace, CHalfEdge >" "class_mesh_lib_1_1_mesh_half_edge_iterator.html" none,
    .mk "MeshLib::MeshVertexIterator< CVertex, CEdge, CFace, CHalfEdge >" "class_mesh_lib_1_1_mesh_vertex_iterator.html" none,
    .mk "strutil::Tokenizer" "classstrutil_1_1_tokenizer.html" none,
    .mk "MeshLib::VertexEdgeIterator< CVertex, CEdge, CFace, CHalfEdge >" "class_mesh_lib_1_1_vertex_edge_iterator.html" none,
    .mk "MeshLib::VertexFaceIterator< CVertex, CEdge, CFace, CHalfEdge >" "class_mesh_lib_1_1_vertex_face_iterator.html" none,
    .mk "MeshLib::VertexInHalfedgeIterator< CVertex, CEdge, CFace, CHalfEdge >" "class_mesh_lib_1_1_vertex_in_halfedge_iterator.html" none,
    .mk "MeshLib::VertexOutHalfedgeIterator< CVertex, CEdge, CFace, CHalfEdge >" "class_mesh_lib_1_1_vertex_out_halfedge_iterator.html" none,
    .mk "MeshLib::VertexVertexIterator< CVertex, CEdge, CFace, CHalfEdge >" "class_mesh_lib_1_1_vertex_vertex_iterator.html" none ]

/-- One row of the `namespace_mesh_lib` array: `[ name, link, anchor ]`. -/
structure NsEntry where
  name : String
  link : String
  anchor : String

/-- The array `namespace_mesh_lib` of `namespace_mesh_lib.js`. -/
def namespace_mesh_lib : List NsEntry :=
  [ ⟨"CBaseEmbed", "class_mesh_lib_1_1_c_base_embed.html", "class_mesh_lib_1_1_c_base_embed"⟩,
    ⟨"CBaseMesh", "class_mesh_lib_1_1_c_base_mesh.html", "class_mesh_lib_1_1_c_base_mesh"⟩,
    ⟨"CBaseRicciFlow", "class_mesh_lib_1_1_c_base_ricci_flow.html", "class_mesh_lib_1_1_c_base_ricci_flow"⟩,
    ⟨"CBoundary", "class_mesh_lib_1_1_c_boundary.html", "class_mesh_lib_1_1_c_boundary"⟩,
    ⟨"CCircle", "class_mesh_lib_1_1_c_circle.html", "class_mesh_lib_1_1_c_circle"⟩,
    ⟨"CDynamicMesh", "class_mesh_lib_1_1_c_dynamic_mesh.html", "class_mesh_lib_1_1_c_dynamic_mesh"⟩,
    ⟨"CEdge", "class_mesh_lib_1_1_c_edge.html", "class_mesh_lib_1_1_c_edge"⟩,
    ⟨"CEuclideanEmbed", "class_mesh_lib_1_1_c_euclidean_embed.html", "class_mesh_lib_1_1_c_euclidean_embed"⟩,
    ⟨"CFace", "class_mesh_lib_1_1_c_face.html", "class_mesh_lib_1_1_c_face"⟩,
    ⟨"CHalfEdge", "class_mesh_lib_1_1_c_half_edge.html", "class_mesh_lib_1_1_c_half_edge"⟩,
    ⟨"CLoop", "class_mesh_lib_1_1_c_loop.html", "class_mesh_lib_1_1_c_loop"⟩,
    ⟨"CParser", "class_mesh_lib_1_1_c_parser.html", "class_mesh_lib_1_1_c_parser"⟩,
    ⟨"CPoint", "class_mesh_lib_1_1_c_point.html", "class_mesh_lib_1_1_c_point"⟩,
    ⟨"CPoint2", "class_mesh_lib_1_1_c_point2.html", "class_mesh_lib_1_1_c_point2"⟩,
    ⟨"CRicciFlowVertex", "class_mesh_lib_1_1_c_ricci_flow_vertex.html", "class_mesh_lib_1_1_c_ricci_flow_vertex"⟩,
    ⟨"CStructure", "class_mesh_lib_1_1_c_structure.html", "class_mesh_lib_1_1_c_structure"⟩,
    ⟨"CTangentialRicciFlow", "class_mesh_lib_1_1_c_tangential_ricci_flow.html", "class_mesh_lib_1_1_c_tangential_ricci_flow"⟩,
    ⟨"CTangentialRicciFlowExtremalLength", "class_mesh_lib_1_1_c_tangential_ricci_flow_extremal_length.html", "class_mesh_lib_1_1_c_tangential_ricci_flow_extremal_length"⟩,
    ⟨"CToken", "class_mesh_lib_1_1_c_token.html", "class_mesh_lib_1_1_c_token"⟩,
    ⟨"CVertex", "class_mesh_lib_1_1_c_vertex.html", "class_mesh_lib_1_1_c_vertex"⟩,
    ⟨"FaceEdgeIterator", "class_mesh_lib_1_1_face_edge_iterator.html", "class_mesh_lib_1_1_face_edge_iterator"⟩,
    ⟨"FaceHalfedgeIterator", "class_mesh_lib_1_1_face_halfedge_iterator.html", "class_mesh_lib_1_1_face_halfedge_iterator"⟩,
    ⟨"FaceVertexIterator", "class_mesh_lib_1_1_face_vertex_iterator.html", "class_mesh_lib_1_1_face_vertex_iterator"⟩,
    ⟨"MeshEdgeIterator", "class_mesh_lib_1_1_mesh_edge_iterator.html", "class_mesh_lib_1_1_mesh_edge_iterator"⟩,
    ⟨"MeshFaceIterator", "class_mesh_lib_1_1_mesh_face_iterator.html", "class_mesh_lib_1_1_mesh_face_iterator"⟩,
    ⟨"MeshHalfEdgeIterator", "class_mesh_lib_1_1_mesh_half_edge_iterator.html", "class_mesh_lib_1_1_mesh_half_edge_iterator"⟩,
    ⟨"MeshVertexIterator", "class_mesh_lib_1_1_mesh_vertex_iterator.html", "class_mesh_lib_1_1_mesh_vertex_iterator"⟩,
    ⟨"VertexEdgeIterator", "class_mesh_lib_1_1_vertex_edge_iterator.html", "class_mesh_lib_1_1_vertex_edge_iterator"⟩,
    ⟨"VertexFaceIterator", "class_mesh_lib_1_1_vertex_face_iterator.html", "class_mesh_lib_1_1_vertex_face_iterator"⟩,
    ⟨"VertexInHalfedgeIterator", "class_mesh_lib_1_1_vertex_in_halfedge_iterator.html", "class_mesh_lib_1_1_vertex_in_halfedge_iterator"⟩,
    ⟨"VertexOutHalfedgeIterator", "class_mesh_lib_1_1_vertex_out_halfedge_iterator.html", "class_mesh_lib_1_1_vertex_out_halfedge_iterator"⟩,
    ⟨"VertexVertexIterator", "class_mesh_lib_1_1_vertex_vertex_iterator.html", "class_mesh_lib_1_1_vertex_vertex_iterator"⟩ ]


/-! ### Reading a row name -/

/-- Characters of `s` before the template argument list: the qualified class name. -/
def qualifiedChars (s : String) : List Char :=
  s.data.takeWhile (fun c => c != '<')

/-- Qualified class name of a row name, template arguments removed:
`"MeshLib::CLoop< CVertex, CEdge, CFace, CHalfEdge >"` gives `"MeshLib::CLoop"`. -/
def qualifiedName (s : String) : String :=
  String.mk (qualifiedChars s)

/-- Template argument list of a row name as written, angle brackets included, or the
empty string: `"MeshLib::CLoop< CVertex, CEdge, CFace, CHalfEdge >"` gives
`"< CVertex, CEdge, CFace, CHalfEdge >"`. -/
def templateSuffix (s : String) : String :=
  String.mk (s.data.dropWhile (fun c => c != '<'))

/-- Remove the prefix `p` from `cs` when it is there. -/
def stripPrefixChars (p cs : List Char) : List Char :=
  if p.isPrefixOf cs then cs.drop p.length else cs

/-- Whether a row name lies in the `MeshLib` namespace. -/
def inMeshLib (s : String) : Bool :=
  "MeshLib::".data.isPrefixOf s.data

/-- Class name of a row name with the `MeshLib::` prefix and the template arguments
stripped: `"MeshLib::CLoop< CVertex, CEdge, CFace, CHalfEdge >"` gives `"CLoop"`. -/
def className (s : String) : String :=
  String.mk (stripPrefixChars "MeshLib::".data (qualifiedChars s))

/-- Split a character list at every comma. -/
def splitCommas : List Char → List (List Char)
  | [] => [[]]
  | c :: cs =>
    match splitCommas cs with
    | [] => [[]]
    | w :: ws => if c = ',' then [] :: w :: ws else (c :: w) :: ws

/-- Drop blanks at both ends. -/
def trimBlanks (cs : List Char) : List Char :=
  ((cs.dropWhile (fun c => c = ' ')).reverse.dropWhile (fun c => c = ' ')).reverse

/-- Template arguments of a row name, in order, each trimmed; `none` when the name has
no well-bracketed argument list. -/
def templateArgs (s : String) : Option (List String) :=
  match s.data.dropWhile (fun c => c != '<') with
  | [] => none
  | _ :: body =>
    match body.reverse with
    | '>' :: revInner => some ((splitCommas revInner.reverse).map (fun w => String.mk (trimBlanks w)))
    | _ => none

/-- Last four template arguments of a row name, each with a `MeshLib::` qualifier
removed; `none` when there are fewer than four. -/
def lastFourArgs (s : String) : Option (List String) :=
  match templateArgs s with
  | none => none
  | some args =>
    if 4 ≤ args.length then
      some ((args.drop (args.length - 4)).map
        (fun a => String.mk (stripPrefixChars "MeshLib::".data a.data)))
    else none

/-- Whether the class name of a row name ends in `Iterator`. -/
def isIteratorName (s : String) : Bool :=
  "Iterator".data.isSuffixOf (className s).data

/-! ### Walking the hierarchy -/

mutual
/-- A row followed by all rows nested below it, in document order. -/
def Entry.flatten : Entry → List Entry
  | .mk n l none => [.mk n l none]
  | .mk n l (some cs) => .mk n l (some cs) :: flattenAll cs
/-- All rows of a list of rows, at any depth, in document order. -/
def flattenAll : List Entry → List Entry
  | [] => []
  | e :: es => e.flatten ++ flattenAll es
end

/-- Every row of `hierarchy`, at any depth. -/
def allEntries : List Entry := flattenAll hierarchy

/-- Qualified names of the classes listed directly below a row (none for `null`). -/
def Entry.derived (e : Entry) : List String :=
  match e.children with
  | none => []
  | some cs => cs.map (fun c => qualifiedName c.name)

mutual
/-- Rows below `e` paired with the qualified name of the row they are listed under. -/
def Entry.withParent (parent : Option String) : Entry → List (Option String × Entry)
  | .mk n l none => [(parent, .mk n l none)]
  | .mk n l (some cs) => (parent, .mk n l (some cs)) :: withParentAll (some (qualifiedName n)) cs
/-- Rows of a list, at any depth, paired with the row they are listed under. -/
def withParentAll (parent : Option String) : List Entry → List (Option String × Entry)
  | [] => []
  | e :: es => e.withParent parent ++ withParentAll parent es
end

/-- For every occurrence of class `q` in `hierarchy`, the class it is listed under
(`none` for a top-level row). -/
def basesOf (q : String) : List (Option String) :=
  ((withParentAll none hierarchy).filter (fun pe => qualifiedName pe.2.name = q)).map (fun pe => pe.1)

/-- For every occurrence of class `q` in `hierarchy`, the classes listed directly
below it. -/
def derivedOf (q : String) : List (List String) :=
  (allEntries.filter (fun e => qualifiedName e.name = q)).map Entry.derived

/-- Link of the `namespace_mesh_lib` row named `n`. -/
def namespaceLink (n : String) : Option String :=
  (namespace_mesh_lib.find? (fun r => r.name = n)).map (fun r => r.link)

/-- The element, geometry and parsing classes, which take no mesh element parameters. -/
def plainClasses : List String :=
  [ "MeshLib::CVertex", "MeshLib::CRicciFlowVertex", "MeshLib::CEdge", "MeshLib::CFace",
    "MeshLib::CHalfEdge", "MeshLib::CPoint", "MeshLib::CPoint2", "MeshLib::CCircle",
    "MeshLib::CParser", "MeshLib::CToken", "strutil::Tokenizer" ]

end MeshLibDoc

namespace MeshLib

/-! ## Part II: the half-edge mesh, its construction and the edge flip

The C++ sources of the library are not part of the documentation index; the
definitions below follow the written specification of the mesh component. -/

/-- Modelled from the spec: the error taxonomy of the error-handling design
(TopologyError, DegenerateFlipError, OpenSurfaceError, NonConvergentMetricError,
EmbeddingError); the library code raising them is not in the documentation index. -/
inductive MeshError where
  | topologyError
  | degenerateFlipError
  | openSurfaceError
  | nonConvergentMetricError
  | embeddingError
  deriving DecidableEq

/-- Modelled from the spec: the Vertex record of the data model (identifier, position,
boundary flag, conformal factor, target curvature, current discrete curvature, trait
payload); `S` is the scalar type, which the missing library code fixes.
Stands in for the source of MeshLib::CVertex and MeshLib::CRicciFlowVertex, which is not among the files. -/
structure Vertex (S : Type) where
  id : Nat
  position : S × S × S
  isBoundary : Bool
  factor : S
  targetCurvature : S
  curvature : S
  trait : String
  deriving DecidableEq

/-- Modelled from the spec: the Edge record of the data model: its two incident
vertices, its weight (inversive distance) and one or two back-references to
half-edges.  The derived length is recomputed from the factors and is not state.
Stands in for the source of MeshLib::CEdge, which is not among the files. -/
structure Edge (S : Type) where
  v1 : Nat
  v2 : Nat
  weight : S
  halfedge : Nat
  twin : Option Nat
  deriving DecidableEq

/-- Modelled from the spec: the Half-Edge record of the data model: source and target
vertex, owning face, next half-edge around the face, opposite half-edge (absent on
the boundary) and parent edge, all as arena indices.
Stands in for the source of MeshLib::CHalfEdge, which is not among the files. -/
structure HalfEdge where
  source : Nat
  target : Nat
  face : Nat
  next : Nat
  opposite : Option Nat
  edge : Nat
  deriving DecidableEq

/-- Modelled from the spec: the Face record of the data model: exactly three
half-edges.
Stands in for the source of MeshLib::CFace, which is not among the files. -/
structure Face where
  h0 : Nat
  h1 : Nat
  h2 : Nat
  deriving DecidableEq

/-- Modelled from the spec: the mesh as four arenas addressed by stable indices.
Stands in for the source of MeshLib::CBaseMesh, which is not among the files. -/
structure Mesh (S : Type) where
  vertices : List (Vertex S)
  edges : List (Edge S)
  halfedges : List HalfEdge
  faces : List Face
  deriving DecidableEq

namespace Mesh

variable {S : Type}

/-- Modelled from the spec: `is_boundary(edge)`: an edge is a boundary edge iff it
has only one half-edge.
Stands in for the source of MeshLib::CBaseMesh, which is not among the files. -/
def isBoundaryEdge (m : Mesh S) (e : Nat) : Bool :=
  match m.edges[e]? with
  | some ed => ed.twin.isNone
  | none => false

/-- Modelled from the spec: whether the mesh already contains an edge joining the
vertices `c` and `d` (an edge is an unordered vertex pair).
Stands in for the source of MeshLib::CBaseMesh, which is not among the files. -/
def hasEdge (m : Mesh S) (c d : Nat) : Bool :=
  m.edges.any (fun ed => (ed.v1 == c && ed.v2 == d) || (ed.v1 == d && ed.v2 == c))

end Mesh

/-- Modelled from the spec: the quadrilateral around an interior edge: the two
half-edges `h`, `t` of the edge and the other two half-edges of each of its two faces,
reached by following `next` (`hn`, `hp` after `h`; `tn`, `tp` after `t`).
Stands in for the source of MeshLib::CDynamicMesh, which is not among the files. -/
structure Quad where
  h : Nat
  t : Nat
  hn : Nat
  hp : Nat
  tn : Nat
  tp : Nat
  H : HalfEdge
  T : HalfEdge
  HN : HalfEdge
  HP : HalfEdge
  TN : HalfEdge
  TP : HalfEdge
  deriving DecidableEq

namespace Quad

/-- Modelled from the spec: the vertex of the first face opposite the edge, one end
of the other diagonal.
Stands in for the source of MeshLib::CDynamicMesh, which is not among the files. -/
def c (q : Quad) : Nat := q.HN.target

/-- Modelled from the spec: the vertex of the second face opposite the edge, the
other end of the other diagonal.
Stands in for the source of MeshLib::CDynamicMesh, which is not among the files. -/
def d (q : Quad) : Nat := q.TN.target

end Quad

namespace Mesh

variable {S : Type}

/-- Modelled from the spec: collect the quadrilateral of the two faces incident to
the half-edges `h` and `t`; `none` when a reference does not resolve.
Stands in for the source of MeshLib::CDynamicMesh, which is not among the files. -/
def quadOf (m : Mesh S) (h t : Nat) : Option Quad :=
  match m.halfedges[h]?, m.halfedges[t]? with
  | some H, some T =>
    match m.halfedges[H.next]?, m.halfedges[T.next]? with
    | some HN, some TN =>
      match m.halfedges[HN.next]?, m.halfedges[TN.next]? with
      | some HP, some TP =>
        some { h := h, t := t, hn := H.next, hp := HN.next, tn := T.next, tp := TN.next,
               H := H, T := T, HN := HN, HP := HP, TN := TN, TP := TP }
      | _, _ => none
    | _, _ => none
  | _, _ => none

/-- Modelled from the spec: replace the edge `e` by the other diagonal of its
quadrilateral, updating in place the half-edges of the edge, the four half-edges
around the quadrilateral and the two faces.  Vertices are not touched.
Stands in for the source of MeshLib::CDynamicMesh, which is not among the files. -/
def applyFlip (m : Mesh S) (e : Nat) (ed : Edge S) (q : Quad) : Mesh S :=
  { vertices := m.vertices
    edges := m.edges.set e { ed with v1 := q.d, v2 := q.c }
    halfedges :=
      (((((m.halfedges.set q.h { q.H with source := q.d, target := q.c, next := q.hp }).set
        q.t { q.T with source := q.c, target := q.d, next := q.tp }).set
        q.hn { q.HN with face := q.T.face, next := q.t }).set
        q.hp { q.HP with next := q.tn }).set
        q.tn { q.TN with face := q.H.face, next := q.h }).set
        q.tp { q.TP with next := q.hn }
    faces := (m.faces.set q.H.face ⟨q.h, q.hp, q.tn⟩).set q.T.face ⟨q.t, q.tp, q.hn⟩ }

/-- Modelled from the spec: the edge flip of the dynamic mesh.  The edge must be
interior (two incident faces), its two faces must form a quadrilateral (the two
corners opposite the edge differ) and the mesh must not already contain the new
diagonal; otherwise the request fails with DegenerateFlipError.  The result pairs the
outcome with the mesh after the call.
Stands in for the source of MeshLib::CDynamicMesh, which is not among the files. -/
def flipEdge (m : Mesh S) (e : Nat) : Except MeshError Unit × Mesh S :=
  match m.edges[e]? with
  | none => (.error .degenerateFlipError, m)
  | some ed =>
    match ed.twin with
    | none => (.error .degenerateFlipError, m)
    | some t =>
      match m.quadOf ed.halfedge t with
      | none => (.error .degenerateFlipError, m)
      | some q =>
        if q.c = q.d then (.error .degenerateFlipError, m)
        else if m.hasEdge q.c q.d then (.error .degenerateFlipError, m)
        else (.ok (), m.applyFlip e ed q)

end Mesh

/-! ### Construction -/

/-- Modelled from the spec: the directed edges of a face list, three per face in face
order: face `(a, b, c)` contributes `a → b`, `b → c`, `c → a`.  Directed edge number
`k` becomes half-edge `k`.
Stands in for the source of MeshLib::CBaseMesh, which is not among the files. -/
def directedEdges : List (Nat × Nat × Nat) → List (Nat × Nat)
  | [] => []
  | f :: fs => (f.1, f.2.1) :: (f.2.1, f.2.2) :: (f.2.2, f.1) :: directedEdges fs

/-- Modelled from the spec: position of the first directed edge equal to `x`, used to
match a half-edge with its opposite.
Stands in for the source of MeshLib::CBaseMesh, which is not among the files. -/
def indexOfPair (x : Nat × Nat) : List (Nat × Nat) → Option Nat
  | [] => none
  | y :: ys => if y = x then some 0 else (indexOfPair x ys).map (fun k => k + 1)

/-- Modelled from the spec: the opposite of half-edge `k`, the half-edge running the
other way between the same two vertices, absent on the boundary.
Stands in for the source of MeshLib::CBaseMesh, which is not among the files. -/
def oppositeOf (ds : List (Nat × Nat)) (k : Nat) : Option Nat :=
  match ds[k]? with
  | none => none
  | some ab => indexOfPair (ab.2, ab.1) ds

/-- Modelled from the spec: the first of the one or two half-edges of the edge that
half-edge `k` belongs to.
Stands in for the source of MeshLib::CBaseMesh, which is not among the files. -/
def ownerOf (ds : List (Nat × Nat)) (k : Nat) : Nat :=
  match oppositeOf ds k with
  | none => k
  | some j => min j k

/-- Modelled from the spec: one owner half-edge per edge, in half-edge order; edge
number `j` is the edge of the `j`-th owner.
Stands in for the source of MeshLib::CBaseMesh, which is not among the files. -/
def owners (ds : List (Nat × Nat)) : List Nat :=
  (List.range ds.length).filter (fun k => ownerOf ds k = k)

/-- Modelled from the spec: position of `x` in a list of indices (the length of the
list when absent).
Stands in for the source of MeshLib::CBaseMesh, which is not among the files. -/
def positionOf (x : Nat) : List Nat → Nat
  | [] => 0
  | y :: ys => if y = x then 0 else positionOf x ys + 1

/-- Modelled from the spec: every vertex index of the face lies within the vertex
list.
Stands in for the source of MeshLib::CBaseMesh, which is not among the files. -/
def faceInRange (n : Nat) (f : Nat × Nat × Nat) : Bool :=
  decide (f.1 < n) && decide (f.2.1 < n) && decide (f.2.2 < n)

/-- Modelled from the spec: the three vertices of a face are distinct (a face is a
triangle).
Stands in for the source of MeshLib::CBaseMesh, which is not among the files. -/
def faceProper (f : Nat × Nat × Nat) : Bool :=
  decide (f.1 ≠ f.2.1) && decide (f.2.1 ≠ f.2.2) && decide (f.2.2 ≠ f.1)

/-- Modelled from the spec: one round of reachability along edges, in either
direction.
Stands in for the source of MeshLib::CBaseMesh, which is not among the files. -/
def growReach (ds : List (Nat × Nat)) (seen : List Nat) : List Nat :=
  ds.foldl
    (fun acc ab =>
      if ab.1 ∈ acc ∧ ab.2 ∉ acc then ab.2 :: acc
      else if ab.2 ∈ acc ∧ ab.1 ∉ acc then ab.1 :: acc
      else acc)
    seen

/-- Modelled from the spec: vertices reached after `k` rounds.
Stands in for the source of MeshLib::CBaseMesh, which is not among the files. -/
def reach (ds : List (Nat × Nat)) : Nat → List Nat → List Nat
  | 0, seen => seen
  | k + 1, seen => reach ds k (growReach ds seen)

/-- Modelled from the spec: the surface is connected: every vertex is reached from
vertex `0`.
Stands in for the source of MeshLib::CBaseMesh, which is not among the files. -/
def isConnected (n : Nat) (ds : List (Nat × Nat)) : Bool :=
  (List.range n).all (fun v => decide (v ∈ reach ds n [0]))

/-- Modelled from the spec: the half-edge arena built from the directed edges.
Stands in for the source of MeshLib::CBaseMesh, which is not among the files. -/
def buildHalfEdges (ds : List (Nat × Nat)) : List HalfEdge :=
  (List.range ds.length).map (fun k =>
    { source := (ds.getD k (0, 0)).1
      target := (ds.getD k (0, 0)).2
      face := k / 3
      next := 3 * (k / 3) + (k + 1) % 3
      opposite := oppositeOf ds k
      edge := positionOf (ownerOf ds k) (owners ds) })

/-- Modelled from the spec: the edge arena, one edge per unordered vertex pair, with
its weight and its back-references to half-edges.
Stands in for the source of MeshLib::CBaseMesh, which is not among the files. -/
def buildEdges {S : Type} (weight : Nat → Nat → S) (ds : List (Nat × Nat)) : List (Edge S) :=
  (owners ds).map (fun k =>
    { v1 := (ds.getD k (0, 0)).1
      v2 := (ds.getD k (0, 0)).2
      weight := weight (ds.getD k (0, 0)).1 (ds.getD k (0, 0)).2
      halfedge := k
      twin := oppositeOf ds k })

/-- Modelled from the spec: the face arena: face `i` owns half-edges `3 i`, `3 i + 1`,
`3 i + 2`.
Stands in for the source of MeshLib::CBaseMesh, which is not among the files. -/
def buildFaces (count : Nat) : List Face :=
  (List.range count).map (fun i => ⟨3 * i, 3 * i + 1, 3 * i + 2⟩)

/-- Modelled from the spec: `is_boundary(vertex)`: the vertex is an end of a half-edge
that has no opposite.
Stands in for the source of MeshLib::CBaseMesh, which is not among the files. -/
def onBoundary (ds : List (Nat × Nat)) (v : Nat) : Bool :=
  ds.any (fun ab => (ab.1 == v || ab.2 == v) && (indexOfPair (ab.2, ab.1) ds).isNone)

/-- Modelled from the spec: the vertex arena: the given vertex records, each with its
arena index as identifier and its boundary flag set from the adjacency.
Stands in for the source of MeshLib::CBaseMesh, which is not among the files. -/
def buildVertices {S : Type} (ds : List (Nat × Nat)) : Nat → List (Vertex S) → List (Vertex S)
  | _, [] => []
  | i, v :: vs => { v with id := i, isBoundary := onBoundary ds i } :: buildVertices ds (i + 1) vs

/-- Modelled from the spec: half-edge mesh construction from an explicit vertex list
and a face list of ordered vertex-index triples.  Fails with TopologyError when a face
references a vertex index out of range, when a face is not a triangle on three
vertices, when a directed edge is shared by more than one face, or when the surface is
disconnected and the caller did not request that.
Stands in for the source of MeshLib::CBaseMesh, which is not among the files. -/
def construct {S : Type} (allowDisconnected : Bool) (weight : Nat → Nat → S)
    (verts : List (Vertex S)) (faces : List (Nat × Nat × Nat)) : Except MeshError (Mesh S) :=
  if !faces.all (faceInRange verts.length) then .error .topologyError
  else if !faces.all faceProper then .error .topologyError
  else if !decide (directedEdges faces).Nodup then .error .topologyError
  else if !allowDisconnected && !isConnected verts.length (directedEdges faces) then
    .error .topologyError
  else
    .ok
      { vertices := buildVertices (directedEdges faces) 0 verts
        edges := buildEdges weight (directedEdges faces)
        halfedges := buildHalfEdges (directedEdges faces)
        faces := buildFaces faces.length }

/-! ### The flow driver -/

/-- Modelled from the spec: what a flow run reports: the final mesh or a fatal error,
the number of flow iterations performed, and whether the tolerance was met (a
ConvergenceWarning is reported when it was not).
Stands in for the source of MeshLib::CBaseRicciFlow, which is not among the files. -/
structure FlowOutcome (S : Type) where
  result : Except MeshError (Mesh S)
  iterations : Nat
  converged : Bool

/-- Modelled from the spec: `run(max_iterations, tolerance)`: call `step` until the
curvature discrepancy is within tolerance or the iteration budget is exhausted.  The
Newton step and the tolerance test are numerical and are parameters here; `done`
counts the steps already performed.
Stands in for the source of MeshLib::CBaseRicciFlow, which is not among the files. -/
def runFlow {S : Type} (step : Mesh S → Except MeshError (Mesh S)) (withinTolerance : Mesh S → Bool) :
    Nat → Nat → Mesh S → FlowOutcome S
  | 0, done, m => ⟨.ok m, done, withinTolerance m⟩
  | budget + 1, done, m =>
    if withinTolerance m then ⟨.ok m, done, true⟩
    else
      match step m with
      | .error err => ⟨.error err, done + 1, false⟩
      | .ok m' => runFlow step withinTolerance budget (done + 1) m'

/-- Modelled from the spec: the data flow of the system: raw topology goes to the
half-edge mesh, and the flow engine iterates on the constructed mesh.  A construction
error is fatal and aborts before any flow iteration.
Stands in for the source of MeshLib::CBaseRicciFlow, which is not among the files. -/
def buildAndRun {S : Type} (allowDisconnected : Bool) (weight : Nat → Nat → S)
    (step : Mesh S → Except MeshError (Mesh S)) (withinTolerance : Mesh S → Bool)
    (maxIterations : Nat) (verts : List (Vertex S)) (faces : List (Nat × Nat × Nat)) :
    FlowOutcome S :=
  match construct allowDisconnected weight verts faces with
  | .error err => ⟨.error err, 0, false⟩
  | .ok m => runFlow step withinTolerance maxIterations 0 m

/-! ### Well-formedness -/

namespace Mesh

variable {S : Type}

/-- Modelled from the spec: the face invariant: the three half-edges of face `f`
follow one another by `next` and return to the first, each belongs to `f`, each ends
where the next starts, and the three corners are distinct vertices of the mesh.
Stands in for the source of MeshLib::CBaseMesh, which is not among the files. -/
def faceOk (m : Mesh S) (f : Nat) : Bool :=
  match m.faces[f]? with
  | none => false
  | some F =>
    match m.halfedges[F.h0]?, m.halfedges[F.h1]?, m.halfedges[F.h2]? with
    | some X, some Y, some Z =>
      decide (X.next = F.h1) && decide (Y.next = F.h2) && decide (Z.next = F.h0) &&
      decide (X.face = f) && decide (Y.face = f) && decide (Z.face = f) &&
      decide (X.target = Y.source) && decide (Y.target = Z.source) &&
      decide (Z.target = X.source) &&
      decide (X.source ≠ Y.source) && decide (Y.source ≠ Z.source) &&
      decide (Z.source ≠ X.source) &&
      decide (X.source < m.vertices.length) && decide (Y.source < m.vertices.length) &&
      decide (Z.source < m.vertices.length)
    | _, _, _ => false

/-- Modelled from the spec: the half-edge invariant: half-edge `i` is one of the three
half-edges of its face; its opposite, when present, runs the other way between the
same vertices, on the same edge, and points back; its parent edge refers back to it.
Stands in for the source of MeshLib::CBaseMesh, which is not among the files. -/
def halfEdgeOk (m : Mesh S) (i : Nat) : Bool :=
  match m.halfedges[i]? with
  | none => false
  | some H =>
    (match m.faces[H.face]? with
      | none => false
      | some F => decide (F.h0 = i) || decide (F.h1 = i) || decide (F.h2 = i)) &&
    (match H.opposite with
      | none => true
      | some j =>
        match m.halfedges[j]? with
        | none => false
        | some T =>
          decide (T.opposite = some i) && decide (T.source = H.target) &&
          decide (T.target = H.source) && decide (T.edge = H.edge)) &&
    (match m.edges[H.edge]? with
      | none => false
      | some ed => decide (ed.halfedge = i) || decide (ed.twin = some i))

/-- Modelled from the spec: the edge invariant: the first half-edge of edge `e` has
`e` as parent edge and joins the two incident vertices of the edge; the second
back-reference is the opposite of the first, so the edge is a boundary edge iff it
has only one half-edge.
Stands in for the source of MeshLib::CBaseMesh, which is not among the files. -/
def edgeOk (m : Mesh S) (e : Nat) : Bool :=
  match m.edges[e]? with
  | none => false
  | some ed =>
    match m.halfedges[ed.halfedge]? with
    | none => false
    | some H =>
      decide (H.edge = e) && decide (ed.v1 = H.source) && decide (ed.v2 = H.target) &&
      decide (H.opposite = ed.twin)

/-- Modelled from the spec: the invariants of the data model, for every face,
half-edge and edge of the mesh.
Stands in for the source of MeshLib::CBaseMesh, which is not among the files. -/
def WellFormed (m : Mesh S) : Prop :=
  (∀ f < m.faces.length, m.faceOk f = true) ∧
  (∀ i < m.halfedges.length, m.halfEdgeOk i = true) ∧
  (∀ e < m.edges.length, m.edgeOk e = true)

instance (m : Mesh S) : Decidable m.WellFormed := by
  unfold WellFormed
  infer_instance

end Mesh

/-! ### Sample meshes -/

/-- A vertex record with integer scalars, for the sample meshes. -/
def sampleVertex : Vertex Int :=
  { id := 0, position := (0, 0, 0), isBoundary := false, factor := 0,
    targetCurvature := 0, curvature := 0, trait := "" }

/-- Two triangles `(0, 1, 2)` and `(1, 0, 3)` glued along the edge `0 — 1`: a
quadrilateral whose interior edge is edge number `0` and whose other edges are
boundary edges. -/
def quadMesh : Mesh Int :=
  match construct false (fun _ _ => 1) (List.replicate 4 sampleVertex) [(0, 1, 2), (1, 0, 3)] with
  | .ok m => m
  | .error _ => ⟨[], [], [], []⟩

end MeshLib

set_option maxRecDepth 1000000

/-! ## Facts about the navigation tables -/

namespace MeshLibDoc

/-- C1. In `hierarchy` the Ricci-flow classes form one three-level inheritance chain:
`MeshLib::CBaseRicciFlow` occurs once, at top level, and its only derived class is
`MeshLib::CTangentialRicciFlow`, which occurs once, below it, and whose only derived
class is `MeshLib::CTangentialRicciFlowExtremalLength`, which occurs once, below that,
and has no derived class. -/
theorem ricci_flow_inheritance_chain :
    basesOf "MeshLib::CBaseRicciFlow" = [none] ∧
    derivedOf "MeshLib::CBaseRicciFlow" = [["MeshLib::CTangentialRicciFlow"]] ∧
    basesOf "MeshLib::CTangentialRicciFlow" = [some "MeshLib::CBaseRicciFlow"] ∧
    derivedOf "MeshLib::CTangentialRicciFlow" =
      [["MeshLib::CTangentialRicciFlowExtremalLength"]] ∧
    basesOf "MeshLib::CTangentialRicciFlowExtremalLength" =
      [some "MeshLib::CTangentialRicciFlow"] ∧
    derivedOf "MeshLib::CTangentialRicciFlowExtremalLength" = [[]] := by
  decide

/-- C2. In `hierarchy` the dynamic mesh extends the half-edge mesh:
`MeshLib::CDynamicMesh` occurs once, directly below a `MeshLib::CBaseMesh` row; of the
four `MeshLib::CBaseMesh` rows three have no derived class and the fourth has
`MeshLib::CDynamicMesh` alone; and `MeshLib::CDynamicMesh` has no derived class. -/
theorem dynamic_mesh_extends_base_mesh :
    basesOf "MeshLib::CDynamicMesh" = [some "MeshLib::CBaseMesh"] ∧
    derivedOf "MeshLib::CBaseMesh" = [[], [], [], ["MeshLib::CDynamicMesh"]] ∧
    derivedOf "MeshLib::CDynamicMesh" = [[]] := by
  decide

/-- C7. Every row of `hierarchy`, at any depth, other than the plain element, geometry
and parsing classes carries a template argument list whose last four arguments are
the vertex, edge, face and half-edge parameters in that order (written
`CVertex, CEdge, CFace, CHalfEdge` or `V, E, F, H`, with or without a `MeshLib::`
qualifier); there are 12 rows whose class name ends in `Iterator`, and each carries
exactly `< CVertex, CEdge, CFace, CHalfEdge >`. -/
theorem element_parameters_threaded :
    (∀ e ∈ allEntries, qualifiedName e.name ∉ plainClasses →
      lastFourArgs e.name = some ["CVertex", "CEdge", "CFace", "CHalfEdge"] ∨
      lastFourArgs e.name = some ["V", "E", "F", "H"]) ∧
    (allEntries.filter (fun e => isIteratorName e.name)).length = 12 ∧
    (∀ e ∈ allEntries, isIteratorName e.name = true →
      templateSuffix e.name = "< CVertex, CEdge, CFace, CHalfEdge >") := by
  decide

/-- C8. The two index files name the same classes: a name is the class name of some
`MeshLib` row of `hierarchy` (at any depth, prefix and template arguments stripped)
exactly when it is listed in `namespace_mesh_lib`, which lists 32 distinct names; and
the only row of `hierarchy` outside the `MeshLib` namespace is `strutil::Tokenizer`. -/
theorem index_files_name_same_classes :
    (∀ n : String,
      n ∈ (allEntries.filter (fun e => inMeshLib e.name)).map (fun e => className e.name) ↔
        n ∈ namespace_mesh_lib.map (fun r => r.name)) ∧
    (namespace_mesh_lib.map (fun r => r.name)).length = 32 ∧
    (namespace_mesh_lib.map (fun r => r.name)).Nodup ∧
    (allEntries.filter (fun e => !inMeshLib e.name)).map (fun e => e.name) =
      ["strutil::Tokenizer"] := by
  have h1 : ∀ n ∈ (allEntries.filter (fun e => inMeshLib e.name)).map (fun e => className e.name),
      n ∈ namespace_mesh_lib.map (fun r => r.name) := by decide
  have h2 : ∀ n ∈ namespace_mesh_lib.map (fun r => r.name),
      n ∈ (allEntries.filter (fun e => inMeshLib e.name)).map (fun e => className e.name) := by
    decide
  exact ⟨fun n => ⟨h1 n, h2 n⟩, by decide, by decide, by decide⟩

/-- C9. Every class has one documentation page across both index files: the link of
every `MeshLib` row of `hierarchy`, at any depth, is the link of the
`namespace_mesh_lib` row of the same class name; rows of the same class link to the
same page (the four `CBaseMesh` rows and the two `CBoundary` rows among them); and
rows of different classes never share a link. -/
theorem one_page_per_class :
    (∀ e ∈ allEntries, inMeshLib e.name = true →
      namespaceLink (className e.name) = some e.link) ∧
    (∀ e₁ ∈ allEntries, ∀ e₂ ∈ allEntries,
      qualifiedName e₁.name = qualifiedName e₂.name → e₁.link = e₂.link) ∧
    (allEntries.filter (fun e => qualifiedName e.name = "MeshLib::CBaseMesh")).map
      (fun e => e.link) = List.replicate 4 "class_mesh_lib_1_1_c_base_mesh.html" ∧
    (allEntries.filter (fun e => qualifiedName e.name = "MeshLib::CBoundary")).map
      (fun e => e.link) = List.replicate 2 "class_mesh_lib_1_1_c_boundary.html" ∧
    (∀ e₁ ∈ allEntries, ∀ e₂ ∈ allEntries,
      qualifiedName e₁.name ≠ qualifiedName e₂.name → e₁.link ≠ e₂.link) := by
  refine ⟨by decide, by decide, by decide, by decide, by decide⟩

/-- C10. The names of `namespace_mesh_lib` are in strictly ascending order under
code-point string comparison, so no class name is listed twice. -/
theorem namespace_names_strictly_ascending :
    List.Sorted (fun a b : String => a < b) (namespace_mesh_lib.map (fun r => r.name)) ∧
    (namespace_mesh_lib.map (fun r => r.name)).Nodup := by
  have hs : List.Sorted (fun a b : String => a.toList < b.toList)
      (namespace_mesh_lib.map (fun r => r.name)) := by
    decide
  have hlt : List.Sorted (fun a b : String => a < b) (namespace_mesh_lib.map (fun r => r.name)) :=
    List.Pairwise.imp (fun hab => String.lt_iff_toList_lt.mpr hab) hs
  exact ⟨hlt, hlt.nodup⟩

end MeshLibDoc

/-! ## Facts about the mesh model -/

namespace MeshLib

namespace Mesh

variable {S : Type}

/-- A lookup has one answer. -/
theorem lookup_inj {α : Type} {l : List α} {i : Nat} {a b : α} (h1 : l[i]? = some a)
    (h2 : l[i]? = some b) : a = b :=
  Option.some.inj (h1.symm.trans h2)

/-- What `faceOk` says about a face whose record is `F`. -/
theorem faceOk_spec {m : Mesh S} {f : Nat} {F : Face} (hok : m.faceOk f = true)
    (hF : m.faces[f]? = some F) :
    ∃ X Y Z, m.halfedges[F.h0]? = some X ∧ m.halfedges[F.h1]? = some Y ∧
      m.halfedges[F.h2]? = some Z ∧ X.next = F.h1 ∧ Y.next = F.h2 ∧ Z.next = F.h0 ∧
      X.target = Y.source ∧ Y.target = Z.source ∧ Z.target = X.source ∧
      X.source ≠ Y.source ∧ Y.source ≠ Z.source ∧ Z.source ≠ X.source := by
  unfold faceOk at hok
  rw [hF] at hok
  simp only at hok
  split at hok
  · rename_i X Y Z hX hY hZ
    simp only [Bool.and_eq_true, decide_eq_true_eq] at hok
    exact ⟨X, Y, Z, hX, hY, hZ, by tauto⟩
  · exact absurd hok (by simp)

/-- What `halfEdgeOk` says about the face of a half-edge. -/
theorem halfEdgeOk_face {m : Mesh S} {i : Nat} {H : HalfEdge} (hok : m.halfEdgeOk i = true)
    (hH : m.halfedges[i]? = some H) :
    ∃ F, m.faces[H.face]? = some F ∧ (F.h0 = i ∨ F.h1 = i ∨ F.h2 = i) := by
  unfold halfEdgeOk at hok
  rw [hH] at hok
  simp only [Bool.and_eq_true] at hok
  obtain ⟨⟨hface, -⟩, -⟩ := hok
  split at hface
  · exact absurd hface (by simp)
  · rename_i F hF
    simp only [Bool.or_eq_true, decide_eq_true_eq] at hface
    exact ⟨F, hF, by tauto⟩

/-- In a well-formed mesh a half-edge and its opposite lie in different faces: a
triangle on three distinct corners has no two half-edges running opposite ways. -/
theorem opposite_face_ne {m : Mesh S} (hwf : m.WellFormed) {i j : Nat} {H T : HalfEdge}
    (hH : m.halfedges[i]? = some H) (hT : m.halfedges[j]? = some T)
    (hst : T.source = H.target) (hts : T.target = H.source) : T.face ≠ H.face := by
  intro hface
  have hil : i < m.halfedges.length := (List.getElem?_eq_some.mp hH).1
  have hjl : j < m.halfedges.length := (List.getElem?_eq_some.mp hT).1
  obtain ⟨F, hF, hi⟩ := halfEdgeOk_face (hwf.2.1 i hil) hH
  obtain ⟨G, hG, hj⟩ := halfEdgeOk_face (hwf.2.1 j hjl) hT
  have eG : G = F := lookup_inj (hface ▸ hG) hF
  subst eG
  have hfl : H.face < m.faces.length := (List.getElem?_eq_some.mp hF).1
  obtain ⟨X, Y, Z, hX, hY, hZ, -, -, -, hXY, hYZ, hZX, dXY, dYZ, dZX⟩ :=
    faceOk_spec (hwf.1 H.face hfl) hF
  have hHc : H = X ∨ H = Y ∨ H = Z := by
    rcases hi with h | h | h
    · exact Or.inl (lookup_inj hH (h ▸ hX))
    · exact Or.inr (Or.inl (lookup_inj hH (h ▸ hY)))
    · exact Or.inr (Or.inr (lookup_inj hH (h ▸ hZ)))
  have hTc : T = X ∨ T = Y ∨ T = Z := by
    rcases hj with h | h | h
    · exact Or.inl (lookup_inj hT (h ▸ hX))
    · exact Or.inr (Or.inl (lookup_inj hT (h ▸ hY)))
    · exact Or.inr (Or.inr (lookup_inj hT (h ▸ hZ)))
  rcases hHc with rfl | rfl | rfl <;> rcases hTc with rfl | rfl | rfl <;> omega

/-- What `edgeOk` says about an edge whose record is `ed`. -/
theorem edgeOk_spec {m : Mesh S} {e : Nat} {ed : Edge S} (hok : m.edgeOk e = true)
    (hed : m.edges[e]? = some ed) :
    ∃ H, m.halfedges[ed.halfedge]? = some H ∧ H.edge = e ∧ ed.v1 = H.source ∧
      ed.v2 = H.target ∧ H.opposite = ed.twin := by
  unfold edgeOk at hok
  rw [hed] at hok
  simp only at hok
  split at hok
  · exact absurd hok (by simp)
  · rename_i H hH
    simp only [Bool.and_eq_true, decide_eq_true_eq] at hok
    exact ⟨H, hH, by tauto⟩

/-- What a successful `quadOf` collected. -/
theorem quadOf_spec {m : Mesh S} {h t : Nat} {q : Quad} (hq : m.quadOf h t = some q) :
    q.h = h ∧ q.t = t ∧ m.halfedges[h]? = some q.H ∧ m.halfedges[t]? = some q.T ∧
    q.hn = q.H.next ∧ m.halfedges[q.H.next]? = some q.HN ∧
    q.hp = q.HN.next ∧ m.halfedges[q.HN.next]? = some q.HP ∧
    q.tn = q.T.next ∧ m.halfedges[q.T.next]? = some q.TN ∧
    q.tp = q.TN.next ∧ m.halfedges[q.TN.next]? = some q.TP := by
  unfold quadOf at hq
  split at hq
  · rename_i H T hH hT
    split at hq
    · rename_i HN TN hHN hTN
      split at hq
      · rename_i HP TP hHP hTP
        cases hq
        exact ⟨rfl, rfl, hH, hT, rfl, hHN, rfl, hHP, rfl, hTN, rfl, hTP⟩
      · exact absurd hq (by simp)
    · exact absurd hq (by simp)
  · exact absurd hq (by simp)

/-- A flip that succeeds went through all its checks. -/
theorem flipEdge_ok {m m' : Mesh S} {e : Nat} (hflip : m.flipEdge e = (.ok (), m')) :
    ∃ ed t q, m.edges[e]? = some ed ∧ ed.twin = some t ∧
      m.quadOf ed.halfedge t = some q ∧ q.c ≠ q.d ∧ m.hasEdge q.c q.d = false ∧
      m' = m.applyFlip e ed q := by
  unfold flipEdge at hflip
  split at hflip
  · exact absurd (congrArg Prod.fst hflip) (by simp)
  · rename_i ed hed
    split at hflip
    · exact absurd (congrArg Prod.fst hflip) (by simp)
    · rename_i t ht
      split at hflip
      · exact absurd (congrArg Prod.fst hflip) (by simp)
      · rename_i q hq
        split at hflip
        · exact absurd (congrArg Prod.fst hflip) (by simp)
        · rename_i hcd
          split at hflip
          · exact absurd (congrArg Prod.fst hflip) (by simp)
          · rename_i hno
            refine ⟨ed, t, q, hed, ht, hq, hcd, by simpa using hno, ?_⟩
            exact (congrArg Prod.snd hflip).symm

/-- In a well-formed mesh, following `next` from a half-edge `h` walks the triangle of
its face: the three half-edges belong to the face, the third leads back to `h`, each
ends where the next starts, and the three corners are distinct vertices of the mesh. -/
theorem triangle_of_halfedge {m : Mesh S} (hwf : m.WellFormed) {h : Nat} {H HN HP : HalfEdge}
    (hH : m.halfedges[h]? = some H) (hHN : m.halfedges[H.next]? = some HN)
    (hHP : m.halfedges[HN.next]? = some HP) :
    HN.face = H.face ∧ HP.face = H.face ∧ HP.next = h ∧
    H.target = HN.source ∧ HN.target = HP.source ∧ HP.target = H.source ∧
    H.source ≠ HN.source ∧ HN.source ≠ HP.source ∧ HP.source ≠ H.source ∧
    H.source < m.vertices.length ∧ HN.source < m.vertices.length ∧
    HP.source < m.vertices.length := by
  have hlt : h < m.halfedges.length := (List.getElem?_eq_some.mp hH).1
  obtain ⟨F, hF, hmem⟩ := halfEdgeOk_face (hwf.2.1 h hlt) hH
  have hflt : H.face < m.faces.length := (List.getElem?_eq_some.mp hF).1
  have hok := hwf.1 H.face hflt
  unfold faceOk at hok
  rw [hF] at hok
  simp only at hok
  split at hok
  · rename_i X Y Z hX hY hZ
    simp only [Bool.and_eq_true, decide_eq_true_eq] at hok
    obtain ⟨⟨⟨⟨⟨⟨⟨⟨⟨⟨⟨⟨⟨⟨hXn, hYn⟩, hZn⟩, fX⟩, fY⟩, fZ⟩, hXY⟩, hYZ⟩, hZX⟩, dXY⟩, dYZ⟩, dZX⟩,
      rX⟩, rY⟩, rZ⟩ := hok
    rcases hmem with h0 | h1 | h2
    · have eX : X = H := lookup_inj (h0 ▸ hX) hH
      have eY : Y = HN := lookup_inj (by rw [← eX, hXn]; exact hY) hHN
      have eZ : Z = HP := lookup_inj (by rw [← eY, hYn]; exact hZ) hHP
      subst eX eY eZ
      exact ⟨by omega, by omega, by omega, hXY, hYZ, hZX, dXY, dYZ, dZX, rX, rY, rZ⟩
    · have eY : Y = H := lookup_inj (h1 ▸ hY) hH
      have eZ : Z = HN := lookup_inj (by rw [← eY, hYn]; exact hZ) hHN
      have eX : X = HP := lookup_inj (by rw [← eZ, hZn]; exact hX) hHP
      subst eX eY eZ
      exact ⟨by omega, by omega, by omega, hYZ, hZX, hXY, dYZ, dZX, dXY, rY, rZ, rX⟩
    · have eZ : Z = H := lookup_inj (h2 ▸ hZ) hH
      have eX : X = HN := lookup_inj (by rw [← eZ, hZn]; exact hX) hHN
      have eY : Y = HP := lookup_inj (by rw [← eX, hXn]; exact hY) hHP
      subst eX eY eZ
      exact ⟨by omega, by omega, by omega, hZX, hXY, hYZ, dZX, dXY, dYZ, rZ, rX, rY⟩
  · exact absurd hok (by simp)

/-- Lookup after a write, when the written position exists. -/
theorem getElem?_set_of_lt {α : Type} (l : List α) (i : Nat) (a : α) (hi : i < l.length)
    (x : Nat) : (l.set i a)[x]? = if x = i then some a else l[x]? := by
  rw [List.getElem?_set]
  by_cases hx : x = i
  · subst hx; simp [hi]
  · simp [hx, Ne.symm hx]

/-- The face invariant, spelled out. -/
theorem faceOk_iff {m : Mesh S} {f : Nat} :
    m.faceOk f = true ↔ ∃ F X Y Z, m.faces[f]? = some F ∧
      m.halfedges[F.h0]? = some X ∧ m.halfedges[F.h1]? = some Y ∧
      m.halfedges[F.h2]? = some Z ∧
      X.next = F.h1 ∧ Y.next = F.h2 ∧ Z.next = F.h0 ∧
      X.face = f ∧ Y.face = f ∧ Z.face = f ∧
      X.target = Y.source ∧ Y.target = Z.source ∧ Z.target = X.source ∧
      X.source ≠ Y.source ∧ Y.source ≠ Z.source ∧ Z.source ≠ X.source ∧
      X.source < m.vertices.length ∧ Y.source < m.vertices.length ∧
      Z.source < m.vertices.length := by
  constructor
  · intro hok
    unfold faceOk at hok
    split at hok
    · exact absurd hok (by simp)
    · rename_i F hF
      split at hok
      · rename_i X Y Z hX hY hZ
        simp only [Bool.and_eq_true, decide_eq_true_eq] at hok
        exact ⟨F, X, Y, Z, hF, hX, hY, hZ, by tauto⟩
      · exact absurd hok (by simp)
  · rintro ⟨F, X, Y, Z, hF, hX, hY, hZ, hc⟩
    unfold faceOk
    rw [hF]
    simp only [hX, hY, hZ, Bool.and_eq_true, decide_eq_true_eq]
    tauto

/-- The half-edge invariant, spelled out. -/
theorem halfEdgeOk_iff {m : Mesh S} {i : Nat} :
    m.halfEdgeOk i = true ↔ ∃ H, m.halfedges[i]? = some H ∧
      (∃ F, m.faces[H.face]? = some F ∧ (F.h0 = i ∨ F.h1 = i ∨ F.h2 = i)) ∧
      (∀ j, H.opposite = some j → ∃ T, m.halfedges[j]? = some T ∧ T.opposite = some i ∧
        T.source = H.target ∧ T.target = H.source ∧ T.edge = H.edge) ∧
      (∃ ed, m.edges[H.edge]? = some ed ∧ (ed.halfedge = i ∨ ed.twin = some i)) := by
  constructor
  · intro hok
    unfold halfEdgeOk at hok
    split at hok
    · exact absurd hok (by simp)
    · rename_i H hH
      simp only [Bool.and_eq_true] at hok
      obtain ⟨⟨hface, hop⟩, hedge⟩ := hok
      refine ⟨H, hH, ?_, ?_, ?_⟩
      · split at hface
        · exact absurd hface (by simp)
        · rename_i F hF
          simp only [Bool.or_eq_true, decide_eq_true_eq] at hface
          exact ⟨F, hF, by tauto⟩
      · intro j hj
        rw [hj] at hop
        simp only at hop
        split at hop
        · exact absurd hop (by simp)
        · rename_i T hT
          simp only [Bool.and_eq_true, decide_eq_true_eq] at hop
          exact ⟨T, hT, by tauto⟩
      · split at hedge
        · exact absurd hedge (by simp)
        · rename_i ed hed
          simp only [Bool.or_eq_true, decide_eq_true_eq] at hedge
          exact ⟨ed, hed, hedge⟩
  · rintro ⟨H, hH, ⟨F, hF, hmem⟩, hop, ⟨ed, hed, hback⟩⟩
    unfold halfEdgeOk
    rw [hH]
    simp only [hF, hed, Bool.and_eq_true, Bool.or_eq_true, decide_eq_true_eq]
    refine ⟨⟨by tauto, ?_⟩, hback⟩
    cases hj : H.opposite with
    | none => rfl
    | some j =>
      obtain ⟨T, hT, hc⟩ := hop j hj
      simp only [hT, Bool.and_eq_true, decide_eq_true_eq]
      tauto

/-- The edge invariant, spelled out. -/
theorem edgeOk_iff {m : Mesh S} {e : Nat} :
    m.edgeOk e = true ↔ ∃ ed H, m.edges[e]? = some ed ∧
      m.halfedges[ed.halfedge]? = some H ∧ H.edge = e ∧ ed.v1 = H.source ∧
      ed.v2 = H.target ∧ H.opposite = ed.twin := by
  constructor
  · intro hok
    unfold edgeOk at hok
    split at hok
    · exact absurd hok (by simp)
    · rename_i ed hed
      split at hok
      · exact absurd hok (by simp)
      · rename_i H hH
        simp only [Bool.and_eq_true, decide_eq_true_eq] at hok
        exact ⟨ed, H, hed, hH, by tauto⟩
  · rintro ⟨ed, H, hed, hH, hc⟩
    unfold edgeOk
    rw [hed]
    simp only [hH, Bool.and_eq_true, decide_eq_true_eq]
    tauto

/-- In a well-formed mesh the half-edges of the face of `h` are `h`, `next h` and
`next (next h)`. -/
theorem face_members {m : Mesh S} (hwf : m.WellFormed) {h i : Nat} {H HN X : HalfEdge}
    (hH : m.halfedges[h]? = some H) (hHN : m.halfedges[H.next]? = some HN)
    (hX : m.halfedges[i]? = some X) (hface : X.face = H.face) :
    i = h ∨ i = H.next ∨ i = HN.next := by
  have hlt : h < m.halfedges.length := (List.getElem?_eq_some.mp hH).1
  have hilt : i < m.halfedges.length := (List.getElem?_eq_some.mp hX).1
  obtain ⟨F, hF, hmem⟩ := halfEdgeOk_face (hwf.2.1 h hlt) hH
  obtain ⟨G, hG, hmemi⟩ := halfEdgeOk_face (hwf.2.1 i hilt) hX
  have eG : G = F := lookup_inj (hface ▸ hG) hF
  subst eG
  have hflt : H.face < m.faces.length := (List.getElem?_eq_some.mp hF).1
  obtain ⟨X0, Y0, Z0, hX0, hY0, hZ0, hXn, hYn, hZn, -⟩ := faceOk_spec (hwf.1 H.face hflt) hF
  rcases hmem with h0 | h1 | h2
  · have eX : X0 = H := lookup_inj (h0 ▸ hX0) hH
    have eY : Y0 = HN := lookup_inj (by rw [← eX, hXn]; exact hY0) hHN
    subst eX eY
    rcases hmemi with k | k | k <;> omega
  · have eY : Y0 = H := lookup_inj (h1 ▸ hY0) hH
    have eZ : Z0 = HN := lookup_inj (by rw [← eY, hYn]; exact hZ0) hHN
    subst eY eZ
    rcases hmemi with k | k | k <;> omega
  · have eZ : Z0 = H := lookup_inj (h2 ▸ hZ0) hH
    have eX : X0 = HN := lookup_inj (by rw [← eZ, hZn]; exact hX0) hHN
    subst eZ eX
    rcases hmemi with k | k | k <;> omega

/-- Two positions holding different entries are different positions. -/
theorem index_ne_of_lookup {α : Type} {l : List α} {i j : Nat} {a b : α}
    (hi : l[i]? = some a) (hj : l[j]? = some b) (hab : a ≠ b) : i ≠ j := by
  intro hij
  subst hij
  exact hab (lookup_inj hi hj)

/-- Replacing an interior edge of a well-formed mesh by the other diagonal of its
quadrilateral gives a well-formed mesh. -/
theorem applyFlip_wellFormed {m : Mesh S} (hwf : m.WellFormed) {e : Nat} {ed : Edge S}
    {q : Quad} (hed : m.edges[e]? = some ed) (htwin : ed.twin = some q.t)
    (hq : m.quadOf ed.halfedge q.t = some q) (hcd : q.c ≠ q.d) :
    (m.applyFlip e ed q).WellFormed := by
  obtain ⟨qh, -, hH, hT, qhn, hHN, qhp, hHP, qtn, hTN, qtp, hTP⟩ := quadOf_spec hq
  have helt : e < m.edges.length := (List.getElem?_eq_some.mp hed).1
  obtain ⟨H0, hH', hHe, hv1, hv2, hopp⟩ := edgeOk_spec (hwf.2.2 e helt) hed
  have eH : H0 = q.H := lookup_inj hH' hH
  subst eH
  have hhl : ed.halfedge < m.halfedges.length := (List.getElem?_eq_some.mp hH).1
  obtain ⟨H1, hH1, -, hHopp, -⟩ := halfEdgeOk_iff.mp (hwf.2.1 _ hhl)
  have eH1 : H1 = q.H := lookup_inj hH1 hH
  subst eH1
  obtain ⟨T0, hT', hTopp, hst, hts, hTe⟩ := hHopp q.t (hopp.trans htwin)
  have eT : T0 = q.T := lookup_inj hT' hT
  subst eT
  have hTf : q.T.face ≠ q.H.face := opposite_face_ne hwf hH hT hst hts
  obtain ⟨fHN, fHP, nHP, e1, e2, e3, d1, d2, d3, r1, r2, r3⟩ :=
    triangle_of_halfedge hwf hH hHN hHP
  obtain ⟨fTN, fTP, nTP, g1, g2, g3, k1, k2, k3, s1, s2, s3⟩ :=
    triangle_of_halfedge hwf hT hTN hTP
  rw [← qh] at hH hhl nHP hTopp
  rw [← qhn] at hHN
  rw [← qhp] at hHP
  rw [← qtn] at hTN
  rw [← qtp] at hTP
  clear hH' hH1 hHopp hT' hq
  have nH := qhn.symm
  have nHN := qhp.symm
  have nT := qtn.symm
  have nTN := qtp.symm
  clear qhn qhp qtn qtp
  obtain ⟨h, t, hn, hp, tn, tp, H, T, HN, HP, TN, TP⟩ := q
  simp only [Quad.c, Quad.d] at *
  have hHt : H.opposite = some t := hopp.trans htwin
  -- the six half-edges of the quadrilateral are six different half-edges
  have n1 : h ≠ hn := index_ne_of_lookup hH hHN (fun hh => d1 (by rw [hh]))
  have n2 : hn ≠ hp := index_ne_of_lookup hHN hHP (fun hh => d2 (by rw [hh]))
  have n3 : hp ≠ h := index_ne_of_lookup hHP hH (fun hh => d3 (by rw [hh]))
  have n4 : t ≠ tn := index_ne_of_lookup hT hTN (fun hh => k1 (by rw [hh]))
  have n5 : tn ≠ tp := index_ne_of_lookup hTN hTP (fun hh => k2 (by rw [hh]))
  have n6 : tp ≠ t := index_ne_of_lookup hTP hT (fun hh => k3 (by rw [hh]))
  have c1 : h ≠ t := index_ne_of_lookup hH hT (fun hh => hTf (by rw [hh]))
  have c2 : h ≠ tn := index_ne_of_lookup hH hTN (fun hh => hTf (by rw [← fTN, hh]))
  have c3 : h ≠ tp := index_ne_of_lookup hH hTP (fun hh => hTf (by rw [← fTP, hh]))
  have c4 : hn ≠ t := index_ne_of_lookup hHN hT (fun hh => hTf (by rw [← fHN, hh]))
  have c5 : hn ≠ tn := index_ne_of_lookup hHN hTN (fun hh => hTf (by rw [← fTN, ← fHN, hh]))
  have c6 : hn ≠ tp := index_ne_of_lookup hHN hTP (fun hh => hTf (by rw [← fTP, ← fHN, hh]))
  have c7 : hp ≠ t := index_ne_of_lookup hHP hT (fun hh => hTf (by rw [← fHP, hh]))
  have c8 : hp ≠ tn := index_ne_of_lookup hHP hTN (fun hh => hTf (by rw [← fTN, ← fHP, hh]))
  have c9 : hp ≠ tp := index_ne_of_lookup hHP hTP (fun hh => hTf (by rw [← fTP, ← fHP, hh]))
  have lh : h < m.halfedges.length := (List.getElem?_eq_some.mp hH).1
  have lt : t < m.halfedges.length := (List.getElem?_eq_some.mp hT).1
  have lhn : hn < m.halfedges.length := (List.getElem?_eq_some.mp hHN).1
  have lhp : hp < m.halfedges.length := (List.getElem?_eq_some.mp hHP).1
  have ltn : tn < m.halfedges.length := (List.getElem?_eq_some.mp hTN).1
  have ltp : tp < m.halfedges.length := (List.getElem?_eq_some.mp hTP).1
  obtain ⟨F₁, hF₁, -⟩ := halfEdgeOk_face (hwf.2.1 h lh) hH
  obtain ⟨F₂, hF₂, -⟩ := halfEdgeOk_face (hwf.2.1 t lt) hT
  have lf1 : H.face < m.faces.length := (List.getElem?_eq_some.mp hF₁).1
  have lf2 : T.face < m.faces.length := (List.getElem?_eq_some.mp hF₂).1
  -- lookups in the three arenas after the flip
  have Lx : ∀ x, (m.applyFlip e ed ⟨h, t, hn, hp, tn, tp, H, T, HN, HP, TN, TP⟩).halfedges[x]? =
      if x = tp then some { TP with next := hn }
      else if x = tn then some { TN with face := H.face, next := h }
      else if x = hp then some { HP with next := tn }
      else if x = hn then some { HN with face := T.face, next := t }
      else if x = t then some { T with source := HN.target, target := TN.target, next := tp }
      else if x = h then some { H with source := TN.target, target := HN.target, next := hp }
      else m.halfedges[x]? := by
    intro x
    simp only [applyFlip, Quad.c, Quad.d]
    rw [getElem?_set_of_lt _ _ _ (by simpa using ltp), getElem?_set_of_lt _ _ _ (by simpa using ltn),
      getElem?_set_of_lt _ _ _ (by simpa using lhp), getElem?_set_of_lt _ _ _ (by simpa using lhn),
      getElem?_set_of_lt _ _ _ (by simpa using lt), getElem?_set_of_lt _ _ _ lh]
  have Fx : ∀ x, (m.applyFlip e ed ⟨h, t, hn, hp, tn, tp, H, T, HN, HP, TN, TP⟩).faces[x]? =
      if x = T.face then some ⟨t, tp, hn⟩
      else if x = H.face then some ⟨h, hp, tn⟩
      else m.faces[x]? := by
    intro x
    simp only [applyFlip]
    rw [getElem?_set_of_lt _ _ _ (by simpa using lf2), getElem?_set_of_lt _ _ _ lf1]
  have Ex : ∀ x, (m.applyFlip e ed ⟨h, t, hn, hp, tn, tp, H, T, HN, HP, TN, TP⟩).edges[x]? =
      if x = e then some { ed with v1 := TN.target, v2 := HN.target }
      else m.edges[x]? := by
    intro x
    simp only [applyFlip, Quad.c, Quad.d]
    rw [getElem?_set_of_lt _ _ _ helt]
  have Vx : (m.applyFlip e ed ⟨h, t, hn, hp, tn, tp, H, T, HN, HP, TN, TP⟩).vertices = m.vertices :=
    rfl
  have Lh := Lx h
  have Lt := Lx t
  have Lhn := Lx hn
  have Lhp := Lx hp
  have Ltn := Lx tn
  have Ltp := Lx tp
  simp only [n1, n2, n3, n4, n5, n6, c1, c2, c3, c4, c5, c6, c7, c8, c9, Ne.symm n1, Ne.symm n2,
    Ne.symm n3, Ne.symm n4, Ne.symm n5, Ne.symm n6, Ne.symm c1, Ne.symm c2, Ne.symm c3, Ne.symm c4,
    Ne.symm c5, Ne.symm c6, Ne.symm c7, Ne.symm c8, Ne.symm c9, if_true, if_false] at Lh Lt Lhn Lhp Ltn Ltp
  have lenH : (m.applyFlip e ed ⟨h, t, hn, hp, tn, tp, H, T, HN, HP, TN, TP⟩).halfedges.length =
      m.halfedges.length := by
    simp [applyFlip]
  have lenF : (m.applyFlip e ed ⟨h, t, hn, hp, tn, tp, H, T, HN, HP, TN, TP⟩).faces.length =
      m.faces.length := by
    simp [applyFlip]
  have lenE : (m.applyFlip e ed ⟨h, t, hn, hp, tn, tp, H, T, HN, HP, TN, TP⟩).edges.length =
      m.edges.length := by
    simp [applyFlip]
  generalize m.applyFlip e ed ⟨h, t, hn, hp, tn, tp, H, T, HN, HP, TN, TP⟩ = m' at *
  -- a half-edge outside the two faces is untouched
  have Lother : ∀ (x : Nat) (X : HalfEdge), m.halfedges[x]? = some X → X.face ≠ H.face → X.face ≠ T.face →
      m'.halfedges[x]? = some X := by
    intro x X hX hf1 hf2
    have x1 : x ≠ tp := index_ne_of_lookup hX hTP (fun hh => hf2 (by rw [hh, fTP]))
    have x2 : x ≠ tn := index_ne_of_lookup hX hTN (fun hh => hf2 (by rw [hh, fTN]))
    have x3 : x ≠ hp := index_ne_of_lookup hX hHP (fun hh => hf1 (by rw [hh, fHP]))
    have x4 : x ≠ hn := index_ne_of_lookup hX hHN (fun hh => hf1 (by rw [hh, fHN]))
    have x5 : x ≠ t := index_ne_of_lookup hX hT (fun hh => hf2 (by rw [hh]))
    have x6 : x ≠ h := index_ne_of_lookup hX hH (fun hh => hf1 (by rw [hh]))
    rw [Lx x]
    simp only [x1, x2, x3, x4, x5, x6, if_false]
    exact hX
  -- every half-edge keeps its opposite and its edge, and all but `h`, `t` their ends
  have Lgen : ∀ (x : Nat) (X : HalfEdge), m.halfedges[x]? = some X → ∃ X', m'.halfedges[x]? = some X' ∧
      X'.opposite = X.opposite ∧ X'.edge = X.edge ∧
      (x ≠ h → x ≠ t → X'.source = X.source ∧ X'.target = X.target) := by
    intro x X hX
    by_cases x1 : x = tp
    · subst x1
      have := lookup_inj hX hTP
      subst this
      exact ⟨_, Ltp, rfl, rfl, fun _ _ => ⟨rfl, rfl⟩⟩
    by_cases x2 : x = tn
    · subst x2
      have := lookup_inj hX hTN
      subst this
      exact ⟨_, Ltn, rfl, rfl, fun _ _ => ⟨rfl, rfl⟩⟩
    by_cases x3 : x = hp
    · subst x3
      have := lookup_inj hX hHP
      subst this
      exact ⟨_, Lhp, rfl, rfl, fun _ _ => ⟨rfl, rfl⟩⟩
    by_cases x4 : x = hn
    · subst x4
      have := lookup_inj hX hHN
      subst this
      exact ⟨_, Lhn, rfl, rfl, fun _ _ => ⟨rfl, rfl⟩⟩
    by_cases x5 : x = t
    · subst x5
      have := lookup_inj hX hT
      subst this
      exact ⟨_, Lt, rfl, rfl, fun _ hh => absurd rfl hh⟩
    by_cases x6 : x = h
    · subst x6
      have := lookup_inj hX hH
      subst this
      exact ⟨_, Lh, rfl, rfl, fun hh _ => absurd rfl hh⟩
    refine ⟨X, ?_, rfl, rfl, fun _ _ => ⟨rfl, rfl⟩⟩
    rw [Lx x]
    simp only [x1, x2, x3, x4, x5, x6, if_false]
    exact hX
  -- every edge keeps its back-references
  have Egen : ∀ (k : Nat) (edk : Edge S), m.edges[k]? = some edk → ∃ edk', m'.edges[k]? = some edk' ∧
      edk'.halfedge = edk.halfedge ∧ edk'.twin = edk.twin := by
    intro k edk hk
    by_cases hke : k = e
    · subst hke
      have := lookup_inj hk hed
      subst this
      exact ⟨{ edk with v1 := TN.target, v2 := HN.target }, by rw [Ex k]; simp only [if_true], rfl, rfl⟩
    · exact ⟨edk, by rw [Ex k]; simp only [hke, if_false]; exact hk, rfl, rfl⟩
  have Ff1 : m'.faces[H.face]? = some ⟨h, hp, tn⟩ := by
    rw [Fx]; simp only [Ne.symm hTf, if_false, if_true]
  have Ff2 : m'.faces[T.face]? = some ⟨t, tp, hn⟩ := by
    rw [Fx]; simp only [if_true]
  refine ⟨?_, ?_, ?_⟩
  · -- faces
    intro f hf
    rw [lenF] at hf
    rw [faceOk_iff]
    by_cases hf2 : f = T.face
    · subst hf2
      refine ⟨_, _, _, _, Ff2, Lt, Ltp, Lhn, ?_⟩
      rw [Vx]
      simp only
      exact ⟨trivial, trivial, trivial, trivial, fTP, trivial, g2, by rw [g3, hst, e1], trivial,
        fun hh => hcd (hh.trans g2.symm), by rw [← e1, ← hst]; exact k3, by rw [e2]; exact d2,
        by rw [e2]; exact r3, s3, r2⟩
    by_cases hf1 : f = H.face
    · subst hf1
      refine ⟨_, _, _, _, Ff1, Lh, Lhp, Ltn, ?_⟩
      rw [Vx]
      simp only
      exact ⟨trivial, trivial, trivial, trivial, fHP, trivial, e2, by rw [e3, ← hts, g1], trivial,
        fun hh => hcd (e2.trans hh.symm), by rw [← g1, hts]; exact d3, by rw [g2]; exact k2,
        by rw [g2]; exact s3, r3, s2⟩
    · obtain ⟨F, X, Y, Z, hF, hX, hY, hZ, hc⟩ := faceOk_iff.mp (hwf.1 f hf)
      refine ⟨F, X, Y, Z, ?_, ?_, ?_, ?_, ?_⟩
      · rw [Fx]; simp only [hf1, hf2, if_false]; exact hF
      · exact Lother _ _ hX (by rw [hc.2.2.2.1]; exact hf1) (by rw [hc.2.2.2.1]; exact hf2)
      · exact Lother _ _ hY (by rw [hc.2.2.2.2.1]; exact hf1) (by rw [hc.2.2.2.2.1]; exact hf2)
      · exact Lother _ _ hZ (by rw [hc.2.2.2.2.2.1]; exact hf1)
          (by rw [hc.2.2.2.2.2.1]; exact hf2)
      · rw [Vx]; exact hc
  · -- half-edges
    intro i hi
    rw [lenH] at hi
    rw [halfEdgeOk_iff]
    obtain ⟨X, hX, ⟨F, hF, hmem⟩, hoppX, ⟨edx, hedx, hback⟩⟩ := halfEdgeOk_iff.mp (hwf.2.1 i hi)
    obtain ⟨X', hX', ho, hedge, hends⟩ := Lgen i X hX
    refine ⟨X', hX', ?_, ?_, ?_⟩
    · -- the face of the half-edge lists it
      by_cases x1 : i = tp
      · have hh : X' = _ := lookup_inj hX' (x1 ▸ Ltp)
        refine ⟨⟨t, tp, hn⟩, ?_, Or.inr (Or.inl x1.symm)⟩
        rw [hh]; simp only; rw [fTP]; exact Ff2
      by_cases x2 : i = tn
      · have hh : X' = _ := lookup_inj hX' (x2 ▸ Ltn)
        refine ⟨⟨h, hp, tn⟩, ?_, Or.inr (Or.inr x2.symm)⟩
        rw [hh]; exact Ff1
      by_cases x3 : i = hp
      · have hh : X' = _ := lookup_inj hX' (x3 ▸ Lhp)
        refine ⟨⟨h, hp, tn⟩, ?_, Or.inr (Or.inl x3.symm)⟩
        rw [hh]; simp only; rw [fHP]; exact Ff1
      by_cases x4 : i = hn
      · have hh : X' = _ := lookup_inj hX' (x4 ▸ Lhn)
        refine ⟨⟨t, tp, hn⟩, ?_, Or.inr (Or.inr x4.symm)⟩
        rw [hh]; exact Ff2
      by_cases x5 : i = t
      · have hh : X' = _ := lookup_inj hX' (x5 ▸ Lt)
        refine ⟨⟨t, tp, hn⟩, ?_, Or.inl x5.symm⟩
        rw [hh]; exact Ff2
      by_cases x6 : i = h
      · have hh : X' = _ := lookup_inj hX' (x6 ▸ Lh)
        refine ⟨⟨h, hp, tn⟩, ?_, Or.inl x6.symm⟩
        rw [hh]; exact Ff1
      have hXX : m'.halfedges[i]? = some X := by
        rw [Lx i]
        simp only [x1, x2, x3, x4, x5, x6, if_false]
        exact hX
      have hh : X' = X := lookup_inj hX' hXX
      have hf1 : X.face ≠ H.face := by
        intro hface
        rcases face_members hwf hH (by rw [nH]; exact hHN) hX hface with k | k | k
        · exact x6 k
        · exact x4 (k.trans nH)
        · exact x3 (k.trans nHN)
      have hf2 : X.face ≠ T.face := by
        intro hface
        rcases face_members hwf hT (by rw [nT]; exact hTN) hX hface with k | k | k
        · exact x5 k
        · exact x2 (k.trans nT)
        · exact x1 (k.trans nTN)
      refine ⟨F, ?_, hmem⟩
      rw [hh, Fx]
      simp only [hf1, hf2, if_false]
      exact hF
    · -- the opposite half-edge still runs the other way
      intro j hj
      rw [ho] at hj
      obtain ⟨Tj, hTj, hTjo, hTjs, hTjt, hTje⟩ := hoppX j hj
      obtain ⟨Tj', hTj', ho', hedge', hends'⟩ := Lgen j Tj hTj
      by_cases ih : i = h
      · have hXH : X = H := lookup_inj hX (ih ▸ hH)
        have jt : j = t := by
          rw [hXH, hHt] at hj
          exact (Option.some.inj hj).symm
        have hh : X' = _ := lookup_inj hX' (ih ▸ Lh)
        refine ⟨_, jt ▸ Lt, ?_, ?_, ?_, ?_⟩
        · simp only; rw [hTopp, ih]
        · rw [hh]
        · rw [hh]
        · rw [hh]; exact hTe
      by_cases it : i = t
      · have hXT : X = T := lookup_inj hX (it ▸ hT)
        have jh : j = h := by
          rw [hXT, hTopp] at hj
          exact (Option.some.inj hj).symm
        have hh : X' = _ := lookup_inj hX' (it ▸ Lt)
        refine ⟨_, jh ▸ Lh, ?_, ?_, ?_, ?_⟩
        · simp only; rw [hHt, it]
        · rw [hh]
        · rw [hh]
        · rw [hh]; exact hTe.symm
      · have jh : j ≠ h := by
          intro hh
          have hTH : Tj = H := lookup_inj hTj (hh ▸ hH)
          rw [hTH, hHt] at hTjo
          exact it (Option.some.inj hTjo).symm
        have jt : j ≠ t := by
          intro hh
          have hTT : Tj = T := lookup_inj hTj (hh ▸ hT)
          rw [hTT, hTopp] at hTjo
          exact ih (Option.some.inj hTjo).symm
        obtain ⟨a1, a2⟩ := hends ih it
        obtain ⟨b1, b2⟩ := hends' jh jt
        exact ⟨Tj', hTj', by rw [ho']; exact hTjo, by rw [b1, a2]; exact hTjs,
          by rw [b2, a1]; exact hTjt, by rw [hedge', hedge]; exact hTje⟩
    · -- the parent edge still refers back
      obtain ⟨edx', hedx', hh', ht'⟩ := Egen _ _ hedx
      exact ⟨edx', by rw [hedge]; exact hedx', by rw [hh', ht']; exact hback⟩
  · -- edges
    intro k hk
    rw [lenE] at hk
    rw [edgeOk_iff]
    by_cases hke : k = e
    · refine ⟨{ ed with v1 := TN.target, v2 := HN.target },
        { H with source := TN.target, target := HN.target, next := hp }, ?_, ?_, ?_⟩
      · rw [Ex]; simp only [hke, if_true]
      · show m'.halfedges[ed.halfedge]? = some _
        rw [← qh]; exact Lh
      · exact ⟨hHe.trans hke.symm, rfl, rfl, hopp⟩
    · obtain ⟨edk, Hk, hedk, hHk, hke', hk1, hk2, hkopp⟩ := edgeOk_iff.mp (hwf.2.2 k hk)
      obtain ⟨Hk', hHk', ho, hedge, hends⟩ := Lgen _ _ hHk
      have x1 : edk.halfedge ≠ h := by
        intro hh
        have hHH : Hk = H := lookup_inj hHk (hh ▸ hH)
        exact hke (by rw [← hke', hHH, hHe])
      have x2 : edk.halfedge ≠ t := by
        intro hh
        have hHT : Hk = T := lookup_inj hHk (hh ▸ hT)
        exact hke (by rw [← hke', hHT, hTe, hHe])
      obtain ⟨a1, a2⟩ := hends x1 x2
      exact ⟨edk, Hk', by rw [Ex]; simp only [hke, if_false]; exact hedk, hHk',
        by rw [hedge]; exact hke', by rw [a1]; exact hk1, by rw [a2]; exact hk2,
        by rw [ho]; exact hkopp⟩

/-- A successful flip keeps the mesh well-formed. -/
theorem flipEdge_wellFormed {m m' : Mesh S} {e : Nat} (hwf : m.WellFormed)
    (hflip : m.flipEdge e = (.ok (), m')) : m'.WellFormed := by
  obtain ⟨ed, t, q, hed, htwin, hq, hcd, -, rfl⟩ := flipEdge_ok hflip
  have qt : q.t = t := (quadOf_spec hq).2.1
  exact applyFlip_wellFormed hwf hed (qt ▸ htwin) (qt ▸ hq) hcd

end Mesh

/-! ### Construction establishes the invariants -/

/-- Three directed edges per face. -/
theorem directedEdges_length (fs : List (Nat × Nat × Nat)) :
    (directedEdges fs).length = 3 * fs.length := by
  induction fs with
  | nil => rfl
  | cons f fs ih => simp only [directedEdges, List.length_cons, ih]; omega

/-- The directed edges of face `f` sit at positions `3 f`, `3 f + 1`, `3 f + 2`. -/
theorem directedEdges_get (fs : List (Nat × Nat × Nat)) (f : Nat) (x : Nat × Nat × Nat)
    (hx : fs[f]? = some x) :
    (directedEdges fs)[3 * f]? = some (x.1, x.2.1) ∧
    (directedEdges fs)[3 * f + 1]? = some (x.2.1, x.2.2) ∧
    (directedEdges fs)[3 * f + 2]? = some (x.2.2, x.1) := by
  induction fs generalizing f with
  | nil => simp at hx
  | cons g gs ih =>
    cases f with
    | zero =>
      simp only [List.getElem?_cons_zero, Option.some.injEq] at hx
      subst hx
      simp [directedEdges]
    | succ f =>
      simp only [List.getElem?_cons_succ] at hx
      obtain ⟨i0, i1, i2⟩ := ih f hx
      have a0 : 3 * (f + 1) = (3 * f) + 1 + 1 + 1 := by omega
      have a1 : 3 * (f + 1) + 1 = (3 * f + 1) + 1 + 1 + 1 := by omega
      have a2 : 3 * (f + 1) + 2 = (3 * f + 2) + 1 + 1 + 1 := by omega
      refine ⟨?_, ?_, ?_⟩
      · rw [a0]; simp only [directedEdges, List.getElem?_cons_succ]; exact i0
      · rw [a1]; simp only [directedEdges, List.getElem?_cons_succ]; exact i1
      · rw [a2]; simp only [directedEdges, List.getElem?_cons_succ]; exact i2

/-- What `indexOfPair` finds is an occurrence. -/
theorem indexOfPair_some {x : Nat × Nat} {l : List (Nat × Nat)} {j : Nat}
    (h : indexOfPair x l = some j) : l[j]? = some x := by
  induction l generalizing j with
  | nil => simp [indexOfPair] at h
  | cons y ys ih =>
    unfold indexOfPair at h
    split at h
    · rename_i hy
      cases h
      simp [hy]
    · cases hr : indexOfPair x ys with
      | none => rw [hr] at h; simp at h
      | some k =>
        rw [hr] at h
        simp only [Option.map_some', Option.some.injEq] at h
        subst h
        simpa using ih hr

/-- In a list without repetition `indexOfPair` finds the position of each entry. -/
theorem indexOfPair_of_nodup {x : Nat × Nat} {l : List (Nat × Nat)} {k : Nat}
    (hl : l.Nodup) (h : l[k]? = some x) : indexOfPair x l = some k := by
  induction l generalizing k with
  | nil => simp at h
  | cons y ys ih =>
    rw [List.nodup_cons] at hl
    cases k with
    | zero =>
      simp only [List.getElem?_cons_zero, Option.some.injEq] at h
      simp [indexOfPair, h]
    | succ k =>
      simp only [List.getElem?_cons_succ] at h
      have hne : y ≠ x := by
        intro hyx
        subst hyx
        exact hl.1 (List.getElem?_mem h)
      simp [indexOfPair, hne, ih hl.2 h]

/-- An entry of a list without repetition is found at its own position. -/
theorem positionOf_of_nodup {x : Nat} {l : List Nat} {k : Nat}
    (hl : l.Nodup) (h : l[k]? = some x) : positionOf x l = k := by
  induction l generalizing k with
  | nil => simp at h
  | cons y ys ih =>
    rw [List.nodup_cons] at hl
    cases k with
    | zero =>
      simp only [List.getElem?_cons_zero, Option.some.injEq] at h
      simp [positionOf, h]
    | succ k =>
      simp only [List.getElem?_cons_succ] at h
      have hne : y ≠ x := by
        intro hyx
        subst hyx
        exact hl.1 (List.getElem?_mem h)
      simp [positionOf, hne, ih hl.2 h]

/-- A member of a list sits at the position `positionOf` reports. -/
theorem positionOf_get {x : Nat} {l : List Nat} (h : x ∈ l) : l[positionOf x l]? = some x := by
  induction l with
  | nil => simp at h
  | cons y ys ih =>
    unfold positionOf
    split
    · rename_i hy
      simp [hy]
    · rename_i hy
      have : x ∈ ys := by
        rcases List.mem_cons.mp h with hh | hh
        · exact absurd hh.symm hy
        · exact hh
      simpa using ih this

/-- Lookup in the half-edge arena built by construction. -/
theorem buildHalfEdges_get {ds : List (Nat × Nat)} {k : Nat} {ab : Nat × Nat}
    (h : ds[k]? = some ab) :
    (buildHalfEdges ds)[k]? = some
      { source := ab.1, target := ab.2, face := k / 3, next := 3 * (k / 3) + (k + 1) % 3,
        opposite := oppositeOf ds k, edge := positionOf (ownerOf ds k) (owners ds) } := by
  have hk : k < ds.length := (List.getElem?_eq_some.mp h).1
  simp [buildHalfEdges, List.getElem?_map, List.getElem?_range hk, List.getD_eq_getElem?_getD, h]

/-- Lookup in the face arena built by construction. -/
theorem buildFaces_get {n f : Nat} (h : f < n) :
    (buildFaces n)[f]? = some ⟨3 * f, 3 * f + 1, 3 * f + 2⟩ := by
  simp [buildFaces, List.getElem?_map, List.getElem?_range h]

/-- Lookup in the edge arena built by construction. -/
theorem buildEdges_get {S : Type} (weight : Nat → Nat → S) {ds : List (Nat × Nat)} {e o : Nat}
    {ab : Nat × Nat} (he : (owners ds)[e]? = some o) (h : ds[o]? = some ab) :
    (buildEdges weight ds)[e]? = some
      { v1 := ab.1, v2 := ab.2, weight := weight ab.1 ab.2, halfedge := o,
        twin := oppositeOf ds o } := by
  simp [buildEdges, List.getElem?_map, he, List.getD_eq_getElem?_getD, h]

/-- Construction keeps the number of vertices. -/
theorem buildVertices_length {S : Type} (ds : List (Nat × Nat)) (i : Nat) (vs : List (Vertex S)) :
    (buildVertices ds i vs).length = vs.length := by
  induction vs generalizing i with
  | nil => rfl
  | cons v vs ih => simp [buildVertices, ih]

/-- The opposite of a half-edge runs the other way, and its own opposite is the
half-edge, when no directed edge is repeated. -/
theorem oppositeOf_spec {ds : List (Nat × Nat)} (hnd : ds.Nodup) {k j : Nat} {ab : Nat × Nat}
    (h : ds[k]? = some ab) (hj : oppositeOf ds k = some j) :
    ds[j]? = some (ab.2, ab.1) ∧ oppositeOf ds j = some k := by
  unfold oppositeOf at hj
  rw [h] at hj
  have hjj := indexOfPair_some hj
  refine ⟨hjj, ?_⟩
  unfold oppositeOf
  rw [hjj]
  exact indexOfPair_of_nodup hnd h

/-- The owner of a half-edge is listed among the owners, and is the half-edge itself
or its opposite. -/
theorem ownerOf_spec {ds : List (Nat × Nat)} (hnd : ds.Nodup) {k : Nat} {ab : Nat × Nat}
    (h : ds[k]? = some ab) :
    ownerOf ds k ∈ owners ds ∧
    (ownerOf ds k = k ∨ oppositeOf ds (ownerOf ds k) = some k) ∧
    (∀ j, oppositeOf ds k = some j → ownerOf ds j = ownerOf ds k) := by
  have hk : k < ds.length := (List.getElem?_eq_some.mp h).1
  cases hopp : oppositeOf ds k with
  | none =>
    have ho : ownerOf ds k = k := by simp [ownerOf, hopp]
    refine ⟨?_, Or.inl ho, fun j hj => by simp at hj⟩
    rw [ho]
    simp [owners, List.mem_filter, hk, ho]
  | some j =>
    obtain ⟨hjj, hback⟩ := oppositeOf_spec hnd h hopp
    have hjl : j < ds.length := (List.getElem?_eq_some.mp hjj).1
    have ho : ownerOf ds k = min j k := by simp [ownerOf, hopp]
    have hoj : ownerOf ds j = min k j := by simp [ownerOf, hback]
    refine ⟨?_, ?_, ?_⟩
    · rw [ho]
      rcases Nat.le_total j k with hle | hle
      · rw [Nat.min_eq_left hle]
        simp [owners, List.mem_filter, hjl, hoj, Nat.min_eq_right hle]
      · rw [Nat.min_eq_right hle]
        simp [owners, List.mem_filter, hk, ho, Nat.min_eq_right hle]
    · rw [ho]
      rcases Nat.le_total j k with hle | hle
      · rw [Nat.min_eq_left hle]
        exact Or.inr hback
      · rw [Nat.min_eq_right hle]
        exact Or.inl rfl
    · intro j' hj'
      have : j' = j := (Option.some.inj hj').symm
      subst this
      rw [ho, hoj, Nat.min_comm]

/-- What a successful construction checked and built. -/
theorem construct_ok {S : Type} {allowDisconnected : Bool} {weight : Nat → Nat → S}
    {verts : List (Vertex S)} {faces : List (Nat × Nat × Nat)} {m : Mesh S}
    (h : construct allowDisconnected weight verts faces = .ok m) :
    faces.all (faceInRange verts.length) = true ∧ faces.all faceProper = true ∧
    (directedEdges faces).Nodup ∧
    m = { vertices := buildVertices (directedEdges faces) 0 verts
          edges := buildEdges weight (directedEdges faces)
          halfedges := buildHalfEdges (directedEdges faces)
          faces := buildFaces faces.length } := by
  unfold construct at h
  split at h
  · exact absurd h (by simp)
  · rename_i h1
    split at h
    · exact absurd h (by simp)
    · rename_i h2
      split at h
      · exact absurd h (by simp)
      · rename_i h3
        split at h
        · exact absurd h (by simp)
        · refine ⟨by simpa using h1, by simpa using h2, by simpa using h3, ?_⟩
          exact (Except.ok.inj h).symm

/-- Every mesh that construction returns satisfies the invariants of the data model. -/
theorem construct_wellFormed {S : Type} {allowDisconnected : Bool} {weight : Nat → Nat → S}
    {verts : List (Vertex S)} {faces : List (Nat × Nat × Nat)} {m : Mesh S}
    (h : construct allowDisconnected weight verts faces = .ok m) : m.WellFormed := by
  obtain ⟨hrange, hproper, hnd, rfl⟩ := construct_ok h
  have hlen := directedEdges_length faces
  refine ⟨?_, ?_, ?_⟩
  · -- faces
    intro f hf
    simp only [buildFaces, List.length_map, List.length_range] at hf
    rw [Mesh.faceOk_iff]
    obtain ⟨x, hx⟩ : ∃ x, faces[f]? = some x := ⟨faces[f], List.getElem?_eq_getElem hf⟩
    obtain ⟨i0, i1, i2⟩ := directedEdges_get faces f x hx
    have hxm : x ∈ faces := List.getElem?_mem hx
    have hr := List.all_eq_true.mp hrange x hxm
    have hp := List.all_eq_true.mp hproper x hxm
    simp only [faceInRange, Bool.and_eq_true, decide_eq_true_eq] at hr
    simp only [faceProper, Bool.and_eq_true, decide_eq_true_eq] at hp
    refine ⟨_, _, _, _, buildFaces_get hf, buildHalfEdges_get i0, buildHalfEdges_get i1,
      buildHalfEdges_get i2, ?_⟩
    simp only [buildVertices_length]
    refine ⟨by omega, by omega, by omega, by omega, by omega, by omega, trivial, trivial, trivial,
      hp.1.1, hp.1.2, hp.2, hr.1.1, hr.1.2, hr.2⟩
  · -- half-edges
    intro k hk
    simp only [buildHalfEdges, List.length_map, List.length_range] at hk
    rw [Mesh.halfEdgeOk_iff]
    obtain ⟨ab, hab⟩ : ∃ ab, (directedEdges faces)[k]? = some ab :=
      ⟨(directedEdges faces)[k], List.getElem?_eq_getElem hk⟩
    obtain ⟨hmem, hself, hsame⟩ := ownerOf_spec hnd hab
    refine ⟨_, buildHalfEdges_get hab, ?_, ?_, ?_⟩
    · refine ⟨_, buildFaces_get (f := k / 3) (by omega), ?_⟩
      simp only
      omega
    · intro j hj
      simp only at hj
      obtain ⟨hjj, hback⟩ := oppositeOf_spec hnd hab hj
      refine ⟨_, buildHalfEdges_get hjj, hback, rfl, rfl, ?_⟩
      simp only
      rw [hsame j hj]
    · have hol : ownerOf (directedEdges faces) k < (directedEdges faces).length := by
        have := (List.mem_filter.mp hmem).1
        simpa using this
      obtain ⟨cd, hcd⟩ : ∃ cd, (directedEdges faces)[ownerOf (directedEdges faces) k]? = some cd :=
        ⟨(directedEdges faces)[ownerOf (directedEdges faces) k], List.getElem?_eq_getElem hol⟩
      refine ⟨_, buildEdges_get weight (positionOf_get hmem) hcd, ?_⟩
      simp only
      exact hself
  · -- edges
    intro e he
    simp only [buildEdges, List.length_map] at he
    rw [Mesh.edgeOk_iff]
    obtain ⟨o, ho⟩ : ∃ o, (owners (directedEdges faces))[e]? = some o :=
      ⟨(owners (directedEdges faces))[e], List.getElem?_eq_getElem he⟩
    have hom : o ∈ owners (directedEdges faces) := List.getElem?_mem ho
    have hof := List.mem_filter.mp hom
    have hol : o < (directedEdges faces).length := by simpa using hof.1
    have hoo : ownerOf (directedEdges faces) o = o := by simpa using hof.2
    obtain ⟨cd, hcd⟩ : ∃ cd, (directedEdges faces)[o]? = some cd :=
      ⟨(directedEdges faces)[o], List.getElem?_eq_getElem hol⟩
    have hown : (owners (directedEdges faces)).Nodup := by
      unfold owners
      exact List.Nodup.filter _ (List.nodup_range _)
    refine ⟨_, _, buildEdges_get weight ho hcd, buildHalfEdges_get hcd, ?_, rfl, rfl, rfl⟩
    simp only
    rw [hoo]
    exact positionOf_of_nodup hown ho

end MeshLib

/-! ### The flip and construction claims -/

namespace MeshLib

/-- The sample quadrilateral is what construction returns on its vertex and face
lists. -/
theorem quadMesh_constructed :
    construct false (fun _ _ => (1 : Int)) (List.replicate 4 sampleVertex)
      [(0, 1, 2), (1, 0, 3)] = .ok quadMesh := by
  rfl

/-- C4 (spec-modelled). An edge-flip request on a boundary edge, an edge with only one
half-edge and so only one incident face, fails with DegenerateFlipError, and the mesh
after the call is the mesh before it: vertices, edges, faces and half-edges are all
identical. -/
theorem flip_boundary_edge_rejected {S : Type} (m : Mesh S) (e : Nat)
    (hb : m.isBoundaryEdge e = true) :
    m.flipEdge e = (.error .degenerateFlipError, m) := by
  unfold Mesh.isBoundaryEdge at hb
  unfold Mesh.flipEdge
  cases hed : m.edges[e]? with
  | none => rfl
  | some ed =>
    rw [hed] at hb
    cases htw : ed.twin with
    | none => simp only [htw]
    | some t =>
      simp only [htw] at hb
      exact absurd hb (by simp)

/-- Edge `1` of `quadMesh` is a boundary edge, and flipping it is an instance of C4. -/
theorem flip_boundary_edge_rejected_witness :
    quadMesh.isBoundaryEdge 1 = true ∧
    quadMesh.flipEdge 1 = (.error .degenerateFlipError, quadMesh) :=
  ⟨by decide, flip_boundary_edge_rejected quadMesh 1 (by decide)⟩

/-- C5 (spec-modelled). When some face of the face list references a vertex index
outside the vertex list, construction fails with TopologyError, and the pipeline that
feeds the constructed mesh to the flow reports that error having performed no flow
iteration, whatever the step, tolerance test and iteration budget are. -/
theorem construct_rejects_out_of_range {S : Type} (allowDisconnected : Bool)
    (weight : Nat → Nat → S) (verts : List (Vertex S)) (faces : List (Nat × Nat × Nat))
    (hbad : ∃ f ∈ faces, verts.length ≤ f.1 ∨ verts.length ≤ f.2.1 ∨ verts.length ≤ f.2.2) :
    construct allowDisconnected weight verts faces = .error .topologyError ∧
    ∀ (step : Mesh S → Except MeshError (Mesh S)) (withinTolerance : Mesh S → Bool)
      (maxIterations : Nat),
      (buildAndRun allowDisconnected weight step withinTolerance maxIterations verts faces).result
          = .error .topologyError ∧
      (buildAndRun allowDisconnected weight step withinTolerance maxIterations verts faces).iterations
          = 0 := by
  have hall : faces.all (faceInRange verts.length) = false := by
    obtain ⟨f, hf, hout⟩ := hbad
    rw [List.all_eq_false]
    refine ⟨f, hf, ?_⟩
    unfold faceInRange
    simp only [Bool.and_eq_true, decide_eq_true_eq, not_and, not_lt]
    omega
  have hc : construct allowDisconnected weight verts faces = .error .topologyError := by
    unfold construct
    simp [hall]
  refine ⟨hc, fun step withinTolerance maxIterations => ?_⟩
  unfold buildAndRun
  rw [hc]
  exact ⟨rfl, rfl⟩

/-- A face list naming vertex `3` over three vertices is an instance of C5. -/
theorem construct_rejects_out_of_range_witness :
    (∃ f ∈ [(0, 1, 2), (1, 0, 3)], (List.replicate 3 sampleVertex).length ≤ f.1 ∨
      (List.replicate 3 sampleVertex).length ≤ f.2.1 ∨
      (List.replicate 3 sampleVertex).length ≤ f.2.2) ∧
    construct false (fun _ _ => (1 : Int)) (List.replicate 3 sampleVertex)
      [(0, 1, 2), (1, 0, 3)] = .error .topologyError :=
  ⟨⟨(1, 0, 3), by decide, by decide⟩,
    (construct_rejects_out_of_range false (fun _ _ => (1 : Int)) (List.replicate 3 sampleVertex)
      [(0, 1, 2), (1, 0, 3)] ⟨(1, 0, 3), by decide, by decide⟩).1⟩

end MeshLib
